import Mathlib

/-!
Verification of the go-tpm2 core against its specification.

This file shallow-embeds the relevant parts of the library:
the TPM command/response packet codec (command.go), the command
dispatcher with its retry loop and exclusive-audit tracking (tpm.go),
the read/write-multiple helper (tpm.go), session establishment
(cmds_session.go), qualified-name computation (util), and the
object duplication wrappers (util/object.go).  Bytes are modelled as
`List Nat` (each entry a value 0..255 in well-formed data); machine
integers are Nat with explicit `% 2^w` where the code truncates;
fallible code returns `Except String`.  External collaborators
(the crypto adapter, the transport) are modelled as explicit function
parameters, following the interfaces in the specification.
-/

namespace GoTpm2

/-- Wire bytes: a list of byte values. -/
abbrev Bytes := List Nat

/-- Big-endian encoding of a 16-bit value (Go binary.BigEndian / mu codec). -/
def be16 (n : Nat) : Bytes := [n / 256 % 256, n % 256]

/-- Big-endian encoding of a 32-bit value. -/
def be32 (n : Nat) : Bytes :=
  [n / 16777216 % 256, n / 65536 % 256, n / 256 % 256, n % 256]

/-- Read a big-endian 16-bit value from the front of a byte stream. -/
def read16 : Bytes → Option (Nat × Bytes)
  | a :: b :: rest => some (a * 256 + b, rest)
  | _ => none

/-- Read a big-endian 32-bit value from the front of a byte stream. -/
def read32 : Bytes → Option (Nat × Bytes)
  | a :: b :: c :: d :: rest => some (((a * 256 + b) * 256 + c) * 256 + d, rest)
  | _ => none

/-- Read a single byte. -/
def readByte : Bytes → Option (Nat × Bytes)
  | a :: rest => some (a, rest)
  | _ => none

/-- Read exactly `k` bytes (io.ReadFull semantics: error when short). -/
def readBytes (k : Nat) (b : Bytes) : Option (Bytes × Bytes) :=
  if b.length < k then none else some (b.take k, b.drop k)

/-- Marshal a TPM2B sized buffer: u16 length prefix then the raw bytes.
The mu codec rejects buffers whose length does not fit in 16 bits. -/
def sized16 (b : Bytes) : Option Bytes :=
  if b.length < 65536 then some (be16 b.length ++ b) else none

/-- Unmarshal a TPM2B sized buffer. -/
def readSized16 (b : Bytes) : Option (Bytes × Bytes) := do
  let (n, rest) ← read16 b
  readBytes n rest

/-- TPM_ST_NO_SESSIONS. -/
def TagNoSessions : Nat := 0x8001
/-- TPM_ST_SESSIONS. -/
def TagSessions : Nat := 0x8002
/-- TPM_RC_SUCCESS. -/
def Success : Nat := 0
/-- Response packets larger than this are rejected (command.go maxResponseSize). -/
def maxResponseSize : Nat := 4096

/-- A command auth area entry (tpm2.AuthCommand): session handle, caller nonce,
session attributes and the HMAC / auth value. -/
structure AuthCommand where
  sessionHandle : Nat
  nonce : Bytes
  sessionAttributes : Nat
  hmac : Bytes
deriving DecidableEq, Repr

/-- A response auth area entry (tpm2.AuthResponse): TPM nonce, session
attributes and the HMAC. -/
structure AuthResponse where
  nonce : Bytes
  sessionAttributes : Nat
  hmac : Bytes
deriving DecidableEq, Repr

/-- Wire form of one command auth entry: u32 session handle, sized nonce,
u8 attributes, sized hmac (mu marshalling of tpm2.AuthCommand). -/
def marshalAuthCommand (a : AuthCommand) : Option Bytes := do
  let n ← sized16 a.nonce
  let h ← sized16 a.hmac
  some (be32 a.sessionHandle ++ n ++ [a.sessionAttributes % 256] ++ h)

/-- Marshal a whole command auth area by concatenating its entries. -/
def marshalAuthArea : List AuthCommand → Option Bytes
  | [] => some []
  | a :: rest => do
    let b ← marshalAuthCommand a
    let bs ← marshalAuthArea rest
    some (b ++ bs)

/-- Unmarshal one command auth entry. -/
def unmarshalAuthCommand (b : Bytes) : Option (AuthCommand × Bytes) := do
  let (handle, b1) ← read32 b
  let (nonce, b2) ← readSized16 b1
  let (attrs, b3) ← readByte b2
  let (hmac, b4) ← readSized16 b3
  some (⟨handle, nonce, attrs, hmac⟩, b4)

theorem readBytes_length_le {k : Nat} {b taken rest : Bytes}
    (h : readBytes k b = some (taken, rest)) : rest.length ≤ b.length := by
  unfold readBytes at h
  split at h
  · exact absurd h (by simp)
  · cases h; simp

theorem readSized16_length_lt {b taken rest : Bytes}
    (h : readSized16 b = some (taken, rest)) : rest.length < b.length := by
  unfold readSized16 at h
  cases b with
  | nil => simp [read16, Option.bind] at h
  | cons x t =>
    cases t with
    | nil => simp [read16, Option.bind] at h
    | cons y t2 =>
      simp only [read16, Option.bind_eq_bind, Option.some_bind] at h
      have := readBytes_length_le h
      simp at this ⊢
      omega

theorem unmarshalAuthCommand_length_lt {b : Bytes} {a : AuthCommand} {rest : Bytes}
    (h : unmarshalAuthCommand b = some (a, rest)) : rest.length < b.length := by
  unfold unmarshalAuthCommand at h
  cases hb : read32 b with
  | none => rw [hb] at h; simp at h
  | some v =>
    obtain ⟨handle, b1⟩ := v
    rw [hb] at h
    simp only [Option.bind_eq_bind, Option.some_bind] at h
    cases h1 : readSized16 b1 with
    | none => rw [h1] at h; simp at h
    | some v1 =>
      obtain ⟨nonce, b2⟩ := v1
      rw [h1] at h
      simp only [Option.some_bind] at h
      cases h2 : readByte b2 with
      | none => rw [h2] at h; simp at h
      | some v2 =>
        obtain ⟨attrs, b3⟩ := v2
        rw [h2] at h
        simp only [Option.some_bind] at h
        cases h3 : readSized16 b3 with
        | none => rw [h3] at h; simp at h
        | some v3 =>
          obtain ⟨hmac, b4⟩ := v3
          rw [h3] at h
          simp only [Option.some_bind, Option.some.injEq, Prod.mk.injEq] at h
          obtain ⟨-, rfl⟩ := h
          have l1 := readSized16_length_lt h1
          have l3 := readSized16_length_lt h3
          have l2 : b3.length ≤ b2.length := by
            cases b2 with
            | nil => simp [readByte] at h2
            | cons z t =>
              simp [readByte] at h2
              obtain ⟨-, rfl⟩ := h2
              simp
          have l0 : b1.length ≤ b.length := by
            cases b with
            | nil => simp [read32] at hb
            | cons p t =>
              cases t with
              | nil => simp [read32] at hb
              | cons q t2 =>
                cases t2 with
                | nil => simp [read32] at hb
                | cons rr t3 =>
                  cases t3 with
                  | nil => simp [read32] at hb
                  | cons s t4 =>
                    simp [read32] at hb
                    obtain ⟨-, rfl⟩ := hb
                    simp
                    omega
          omega

/-- Unmarshal one response auth entry: sized nonce, u8 attributes, sized hmac
(mu marshalling of tpm2.AuthResponse). -/
def unmarshalAuthResponse (b : Bytes) : Option (AuthResponse × Bytes) := do
  let (nonce, b1) ← readSized16 b
  let (attrs, b2) ← readByte b1
  let (hmac, b3) ← readSized16 b2
  some (⟨nonce, attrs, hmac⟩, b3)

theorem unmarshalAuthResponse_length_lt {b : Bytes} {a : AuthResponse} {rest : Bytes}
    (h : unmarshalAuthResponse b = some (a, rest)) : rest.length < b.length := by
  unfold unmarshalAuthResponse at h
  cases h1 : readSized16 b with
  | none => rw [h1] at h; simp at h
  | some v1 =>
    obtain ⟨nonce, b1⟩ := v1
    rw [h1] at h
    simp only [Option.bind_eq_bind, Option.some_bind] at h
    cases h2 : readByte b1 with
    | none => rw [h2] at h; simp at h
    | some v2 =>
      obtain ⟨attrs, b2⟩ := v2
      rw [h2] at h
      simp only [Option.some_bind] at h
      cases h3 : readSized16 b2 with
      | none => rw [h3] at h; simp at h
      | some v3 =>
        obtain ⟨hmac, b3⟩ := v3
        rw [h3] at h
        simp only [Option.some_bind, Option.some.injEq, Prod.mk.injEq] at h
        obtain ⟨-, rfl⟩ := h
        have l1 := readSized16_length_lt h1
        have l3 := readSized16_length_lt h3
        have l2 : b2.length ≤ b1.length := by
          cases b1 with
          | nil => simp [readByte] at h2
          | cons z t =>
            simp [readByte] at h2
            obtain ⟨-, rfl⟩ := h2
            simp
        omega

/-- Unmarshal the response auth area: one entry per remaining chunk of the
buffer, at most 3 entries (command.go ResponsePacket.Unmarshal loop). -/
def parseRespAuths (acc : List AuthResponse) (b : Bytes) : Except String (List AuthResponse) :=
  if b.length = 0 then .ok acc
  else if acc.length ≥ 3 then .error (toString b.length ++ " trailing byte(s)")
  else
    match h : unmarshalAuthResponse b with
    | none => .error "cannot unmarshal auth"
    | some (a, rest) => parseRespAuths (acc ++ [a]) rest
termination_by b.length
decreasing_by
  exact unmarshalAuthResponse_length_lt h

/-- The result of ResponsePacket.Unmarshal: response code, handles,
parameters and response auth area (all still in wire form). -/
structure ResponseUnmarshalled where
  rc : Nat
  handles : Bytes
  parameters : Bytes
  authArea : List AuthResponse
deriving DecidableEq, Repr

/-- ResponsePacket.Unmarshal (command.go lines 149-211).  Deserializes a
response packet given the number of response handles for the command. -/
def responsePacketUnmarshal (numHandles : Nat) (p : Bytes) : Except String ResponseUnmarshalled :=
  if p.length > maxResponseSize then .error ("packet too large (" ++ toString p.length ++ " bytes)")
  else
    match read16 p with
    | none => .error "cannot unmarshal header"
    | some (tag, b1) =>
      match read32 b1 with
      | none => .error "cannot unmarshal header"
      | some (responseSize, b2) =>
        match read32 b2 with
        | none => .error "cannot unmarshal header"
        | some (responseCode, buf) =>
          if responseSize ≠ p.length then
            .error ("invalid responseSize value (got " ++ toString responseSize ++
                    ", packet length " ++ toString p.length ++ ")")
          else if responseCode ≠ Success then
            if buf.length ≠ 0 then .error (toString buf.length ++ " trailing byte(s)")
            else .ok ⟨responseCode, [], [], []⟩
          else
            match readBytes (numHandles * 4) buf with
            | none => .error "cannot read handles"
            | some (handles, b3) =>
              if tag = TagSessions then
                match read32 b3 with
                | none => .error "cannot unmarshal parameterSize"
                | some (parameterSize, b4) =>
                  match readBytes parameterSize b4 with
                  | none => .error "cannot read parameters"
                  | some (parameters, b5) =>
                    match parseRespAuths [] b5 with
                    | .error e => .error e
                    | .ok auths => .ok ⟨Success, handles, parameters, auths⟩
              else if tag = TagNoSessions then
                .ok ⟨Success, handles, b3, []⟩
              else
                .error ("invalid tag: " ++ toString tag)

/-- Marshal a complete command packet (command.go MarshalCommandPacket).
The handles and parameters are already in wire form; `none` corresponds to
the Go function panicking on marshalling failure. -/
def marshalCommandPacket (command : Nat) (handles : Bytes) (authArea : List AuthCommand)
    (parameters : Bytes) : Option Bytes := do
  let payload ←
    if authArea.length > 0 then do
      let aBytes ← marshalAuthArea authArea
      some (handles ++ be32 (aBytes.length % 4294967296) ++ aBytes ++ parameters)
    else
      some (handles ++ parameters)
  let tag := if authArea.length > 0 then TagSessions else TagNoSessions
  let commandSize := (10 + payload.length) % 4294967296
  some (be16 tag ++ be32 commandSize ++ be32 (command % 4294967296) ++ payload)

/-- Unmarshal the command auth area from a window limited to `n` logical bytes
(io.LimitedReader in CommandPacket.UnmarshalPayload): `w` holds the available
bytes of the window, `n` the reader limit not yet consumed. -/
def parseCmdAuths (acc : List AuthCommand) (n : Nat) (w : Bytes) : Except String (List AuthCommand) :=
  if n = 0 then .ok acc
  else if acc.length ≥ 3 then .error (toString n ++ " trailing byte(s) in auth area")
  else
    match h : unmarshalAuthCommand w with
    | none => .error "cannot unmarshal auth"
    | some (a, rest) => parseCmdAuths (acc ++ [a]) (n - (w.length - rest.length)) rest
termination_by w.length
decreasing_by
  exact unmarshalAuthCommand_length_lt h

/-- The result of CommandPacket.UnmarshalPayload: raw handle block, command
auth area and raw parameter bytes. -/
structure CommandUnmarshalled where
  handles : Bytes
  authArea : List AuthCommand
  parameters : Bytes
deriving DecidableEq, Repr

/-- CommandPacket.UnmarshalPayload (command.go lines 45-92).  Splits a command
packet into handles, auth area and parameters given the number of command
handles for the command. -/
def commandUnmarshalPayload (numHandles : Nat) (p : Bytes) : Except String CommandUnmarshalled :=
  match read16 p with
  | none => .error "cannot unmarshal header"
  | some (tag, b1) =>
    match read32 b1 with
    | none => .error "cannot unmarshal header"
    | some (commandSize, b2) =>
      match read32 b2 with
      | none => .error "cannot unmarshal header"
      | some (_, buf) =>
        if commandSize ≠ p.length % 4294967296 then
          .error ("invalid commandSize value (got " ++ toString commandSize ++
                  ", packet length " ++ toString p.length ++ ")")
        else
          match readBytes (numHandles * 4) buf with
          | none => .error "cannot read handles"
          | some (handles, b3) =>
            if tag = TagSessions then
              match read32 b3 with
              | none => .error "cannot unmarshal auth area size"
              | some (authSize, b4) =>
                match parseCmdAuths [] authSize (b4.take authSize) with
                | .error e => .error e
                | .ok auths => .ok ⟨handles, auths, b4.drop authSize⟩
            else if tag = TagNoSessions then
              .ok ⟨handles, [], b3⟩
            else
              .error ("invalid tag: " ++ toString tag)

/-! ## Command dispatcher retry loop (tpm.go TPMContext.RunCommand) -/

/-- Decoded TPM response code classification (DecodeResponseCode).
Modelled from the spec: the decoder itself is not under src/; section 7 of the
spec mirrors the TPM response-code formats (format-1 errors carrying an index,
format-0 errors, warnings and vendor errors). -/
inductive TPMErr where
  | fmt1 (code : Nat)
  | vendor (code : Nat)
  | warning (code : Nat)
  | err0 (code : Nat)
deriving DecidableEq, Repr

/-- TPM_RC_YIELDED warning number (WarningYielded). -/
def WarningYielded : Nat := 0x08
/-- TPM_RC_TESTING warning number (WarningTesting). -/
def WarningTesting : Nat := 0x0a
/-- TPM_RC_RETRY warning number (WarningRetry). -/
def WarningRetry : Nat := 0x22

/-- Modelled from the spec: DecodeResponseCode is not under src/.  A zero
response code is success; a format-1 code (bit 7) is an error with a format-1
number; otherwise bit 10 marks a vendor code, bit 11 a warning, and the rest
are format-0 errors. -/
def decodeResponseCode (rc : Nat) : Option TPMErr :=
  if rc = Success then none
  else if rc % 256 / 128 = 1 then some (.fmt1 (rc % 64))
  else if rc / 1024 % 2 = 1 then some (.vendor (rc % 128))
  else if rc / 2048 % 2 = 1 then some (.warning (rc % 128))
  else some (.err0 (rc % 128))

/-- Does IsTPMWarning match one of the three retry warnings
(WarningYielded, WarningTesting, WarningRetry)? -/
def isRetryWarning : TPMErr → Bool
  | .warning c => c = WarningYielded || c = WarningTesting || c = WarningRetry
  | _ => false

/-- The retry loop of TPMContext.RunCommand (tpm.go lines 385-414), seen
through the response codes the TPM returns on each submission (`rcSeq i` is
the response code of submission number i+1).  Returns the outcome together
with the number of submissions made. -/
def runCommandLoop (maxSubmissions : Nat) (rcSeq : Nat → Nat) (tries : Nat) :
    Except TPMErr Unit × Nat :=
  match decodeResponseCode (rcSeq (tries - 1)) with
  | none => (.ok (), tries)
  | some e =>
    if tries ≥ maxSubmissions then (.error e, tries)
    else if isRetryWarning e then runCommandLoop maxSubmissions rcSeq (tries + 1)
    else (.error e, tries)
termination_by maxSubmissions - tries
decreasing_by
  omega

/-- TPMContext.RunCommand submission loop, starting at the first attempt. -/
def runCommand (maxSubmissions : Nat) (rcSeq : Nat → Nat) : Except TPMErr Unit × Nat :=
  runCommandLoop maxSubmissions rcSeq 1

/-- The default number of submissions configured by NewTPMContext
(tpm.go line 519: maxSubmissions = 5). -/
def defaultMaxSubmissions : Nat := 5

/-! ## Exclusive-audit tracking (tpm.go execContext.processResponseAuth) -/

/-- Host-side session data, reduced to the field the exclusive-audit logic
touches (tpm2.sessionData.IsExclusive). -/
structure SessionData where
  isExclusive : Bool
deriving DecidableEq, Repr

/-- The host-side session store: session contexts by identity; `none` models
a session context whose Data() is nil. -/
abbrev SessionStore := Nat → Option SessionData

/-- The execContext state relevant to exclusive-audit tracking: the session
store, the cached last-exclusive session and the pending response. -/
structure ExecState where
  sessions : SessionStore
  lastExclusiveSession : Option Nat
  pendingResponse : Option Nat

/-- An rspContext: identity, command code and the identities of the sessions
in its SessionParams. -/
structure RspCtx where
  id : Nat
  commandCode : Nat
  sessionIds : List Nat
  err : Except String Unit

/-- TPM_CC_Startup. -/
def CommandStartup : Nat := 0x144
/-- TPM_CC_ContextLoad. -/
def CommandContextLoad : Nat := 0x161
/-- TPM_CC_ContextSave. -/
def CommandContextSave : Nat := 0x162
/-- TPM_CC_FlushContext. -/
def CommandFlushContext : Nat := 0x165

/-- isSessionAllowed (tpm.go lines 113-126): sessions are not allowed with
Startup, ContextLoad, ContextSave and FlushContext. -/
def isSessionAllowed (commandCode : Nat) : Bool :=
  if commandCode = CommandStartup then false
  else if commandCode = CommandContextLoad then false
  else if commandCode = CommandContextSave then false
  else if commandCode = CommandFlushContext then false
  else true

/-- The host-side clearing step of processResponseAuth (tpm.go lines
165-171): when the command allows sessions and a last-exclusive session is
cached, clear its IsExclusive flag and drop the cache. -/
def clearLastExclusive (commandCode : Nat) (st : ExecState) : ExecState :=
  if isSessionAllowed commandCode ∧ st.lastExclusiveSession ≠ none then
    match st.lastExclusiveSession with
    | some s =>
      { st with
        sessions := fun n => if n = s then (st.sessions s).map (fun d => { d with isExclusive := false }) else st.sessions n,
        lastExclusiveSession := none }
    | none => st
  else st

/-- The cache-refresh loop of processResponseAuth (tpm.go lines 177-182):
the first session of the response whose data is exclusive. -/
def findExclusiveSession (store : SessionStore) : List Nat → Option Nat
  | [] => none
  | s :: rest =>
    match store s with
    | some d => if d.isExclusive then some s else findExclusiveSession store rest
    | none => findExclusiveSession store rest

/-- processResponseAuth (tpm.go lines 154-185).  `processAuthArea` stands for
sessionParams.ProcessResponseAuthArea, an explicit parameter because the
session-engine internals live outside the packet dispatcher: it validates
the response auth area and returns the updated session store.  The result is
the new state, the updated rspContext and the returned error. -/
def processResponseAuth (processAuthArea : SessionStore → Except String SessionStore)
    (st : ExecState) (r : RspCtx) : ExecState × RspCtx × Except String Unit :=
  if st.pendingResponse ≠ some r.id then (st, r, r.err)
  else
    let st1 := { clearLastExclusive r.commandCode st with pendingResponse := none }
    match processAuthArea st1.sessions with
    | .error e =>
      (st1, { r with err := .error e }, .error e)
    | .ok store2 =>
      let st2 := { st1 with sessions := store2 }
      let st3 :=
        match findExclusiveSession store2 r.sessionIds with
        | some s => { st2 with lastExclusiveSession := some s }
        | none => st2
      (st3, { r with err := .ok () }, .ok ())

/-! ## Read/write-multiple helper (tpm.go execMultipleHelper / readMultipleHelper) -/

/-- TPM_SE_HMAC. -/
def SessionTypeHMAC : Nat := 0x00
/-- TPM_SE_POLICY. -/
def SessionTypePolicy : Nat := 0x01
/-- TPM_SE_TRIAL. -/
def SessionTypeTrial : Nat := 0x03
/-- TPMA_SESSION continueSession bit (AttrContinueSession). -/
def AttrContinueSession : Nat := 0x01

/-- The session data the helper inspects (sessionData.SessionType);
a session context whose Data() is nil carries none. -/
structure HelperSessionData where
  sessionType : Nat
deriving DecidableEq, Repr

/-- A session context handed to the helper: its data and per-use attributes. -/
structure SessionCtx where
  data : Option HelperSessionData
  attrs : Nat
deriving DecidableEq, Repr

/-- SessionContext.IncludeAttrs: a copy of the session context with the given
attributes added. -/
def includeAttrs (s : SessionCtx) (a : Nat) : SessionCtx :=
  { s with attrs := s.attrs ||| a }

/-- The command-issuing callback of the read-multiple helper: size, offset
and sessions to data or error. -/
abbrev ExecFn := Nat → Nat → List (Option SessionCtx) → Except String Bytes

/-- The preamble loop of execMultipleHelper (tpm.go lines 35-50): reject
unusable session contexts, detect policy sessions and build the session list
with AttrContinueSession included. -/
def prepareSessions : List (Option SessionCtx) → Except String (Bool × List (Option SessionCtx))
  | [] => .ok (false, [])
  | none :: rest =>
    match prepareSessions rest with
    | .error e => .error e
    | .ok (p, r) => .ok (p, none :: r)
  | some s :: rest =>
    match s.data with
    | none => .error "unusable session context"
    | some d =>
      match prepareSessions rest with
      | .error e => .error e
      | .ok (p, r) =>
        .ok ((d.sessionType == SessionTypePolicy) || p,
             some (includeAttrs s AttrContinueSession) :: r)

/-- The state of readMultipleHelperContext (tpm.go lines 68-75). -/
structure ReadMultipleState where
  data : Bytes
  total : Nat
  remaining : Nat
deriving DecidableEq, Repr

/-- Go copy(dst[off:], src): overwrite dst from position off with src,
truncated to what fits; dst keeps its length. -/
def copyInto (dst : Bytes) (off : Nat) (src : Bytes) : Bytes :=
  dst.take off ++ src.take (dst.length - off) ++ dst.drop (off + min src.length (dst.length - off))

/-- readMultipleHelperContext.last (tpm.go lines 77-79). -/
def readMultipleLast (maxSize : Nat) (st : ReadMultipleState) : Bool :=
  st.remaining ≤ maxSize

/-- readMultipleHelperContext.run (tpm.go lines 81-97). -/
def readMultipleRun (fn : ExecFn) (maxSize : Nat) (st : ReadMultipleState)
    (sessions : List (Option SessionCtx)) : Except String ReadMultipleState :=
  let sz := if st.remaining > maxSize then maxSize else st.remaining
  match fn sz st.total sessions with
  | .error e => .error e
  | .ok tmpData =>
    .ok ⟨copyInto st.data st.total tmpData, st.total + sz, st.remaining - sz⟩

/-- The loop of execMultipleHelper (tpm.go lines 52-65), specialized to the
read-multiple action: while not on the last chunk, reject policy sessions and
run with the continue-session list; the last chunk runs with the original
session contexts.  fuel bounds the iterations; st.remaining iterations are
enough whenever maxSize is nonzero (with maxSize zero and data remaining the
Go loop does not terminate). -/
def execMultipleLoop (fn : ExecFn) (maxSize : Nat) (hasPolicy : Bool)
    (sessionsCont sessionsOrig : List (Option SessionCtx)) (fuel : Nat)
    (st : ReadMultipleState) : Except String ReadMultipleState :=
  if readMultipleLast maxSize st then
    readMultipleRun fn maxSize st sessionsOrig
  else if hasPolicy then
    .error "cannot use a policy session for authorization"
  else
    match fuel with
    | 0 => .error "out of fuel"
    | fuel2 + 1 =>
      match readMultipleRun fn maxSize st sessionsCont with
      | .error e => .error e
      | .ok st2 => execMultipleLoop fn maxSize hasPolicy sessionsCont sessionsOrig fuel2 st2

/-- execMultipleHelper (tpm.go lines 28-66), specialized to the read-multiple
action. -/
def execMultipleHelper (fn : ExecFn) (maxSize : Nat)
    (sessions : List (Option SessionCtx)) (st : ReadMultipleState) :
    Except String ReadMultipleState :=
  match prepareSessions sessions with
  | .error e => .error e
  | .ok (hasPolicy, sessionsCont) =>
    execMultipleLoop fn maxSize hasPolicy sessionsCont sessions (st.remaining + 1) st

/-- readMultipleHelper (tpm.go lines 99-111). -/
def readMultipleHelper (size maxSize : Nat) (fn : ExecFn)
    (sessions : List (Option SessionCtx)) : Except String Bytes :=
  match execMultipleHelper fn maxSize sessions ⟨List.replicate size 0, 0, size⟩ with
  | .error e => .error e
  | .ok st => .ok st.data

/-- The chunk schedule the helper follows, written from the specification:
slices of at most maxSize bytes with their offsets (chunks m r off with m = 0
is a totalization artifact; the helper is only characterized for m at least
1). -/
def chunks : Nat → Nat → Nat → List (Nat × Nat)
  | 0, remaining, offset => [(remaining, offset)]
  | m + 1, remaining, offset =>
    if remaining ≤ m + 1 then [(remaining, offset)]
    else (m + 1, offset) :: chunks (m + 1) (remaining - (m + 1)) (offset + (m + 1))
termination_by _ remaining _ => remaining
decreasing_by
  omega

/-- Issue one command for a chunk: call the callback with the chunk size and
offset and copy the returned bytes into the buffer. -/
def applyChunk (fn : ExecFn) (sessions : List (Option SessionCtx)) (c : Nat × Nat)
    (st : ReadMultipleState) : Except String ReadMultipleState :=
  match fn c.1 c.2 sessions with
  | .error e => .error e
  | .ok tmpData =>
    .ok ⟨copyInto st.data c.2 tmpData, st.total + c.1, st.remaining - c.1⟩

/-- One command per chunk: all chunks but the last use the continue-session
list, the last uses the original session contexts. -/
def runChunks (fn : ExecFn) (sessionsCont sessionsOrig : List (Option SessionCtx)) :
    List (Nat × Nat) → ReadMultipleState → Except String ReadMultipleState
  | [], st => .ok st
  | [c], st => applyChunk fn sessionsOrig c st
  | c :: rest, st =>
    match applyChunk fn sessionsCont c st with
    | .error e => .error e
    | .ok st2 => runChunks fn sessionsCont sessionsOrig rest st2

/-! ## StartAuthSession (cmds_session.go) -/

/-- TPM_RH_NULL. -/
def HandleNull : Nat := 0x40000007

/-- A resource context as consumed by StartAuthSession: its handle. -/
structure ResourceCtx where
  handle : Nat
deriving DecidableEq, Repr

/-- The authValue argument of StartAuthSession (an interface value in Go:
string, byte slice, nil, or anything else). -/
inductive AuthValueArg where
  | str (s : Bytes)
  | bytes (b : Bytes)
  | nothing
  | other
deriving DecidableEq, Repr

/-- Errors surfaced by StartAuthSession: InvalidParamError or another
error. -/
inductive SessionError where
  | invalidParam (msg : String)
  | other (msg : String)
deriving DecidableEq, Repr

/-- SymDef, reduced to its algorithm. -/
structure SymDef where
  algorithm : Nat
deriving DecidableEq, Repr

/-- The sessionContext literal StartAuthSession builds (cmds_session.go
lines 68-82). -/
structure StartedSession where
  handle : Nat
  hashAlg : Nat
  boundHandle : Nat
  nonceCaller : Bytes
  nonceTPM : Bytes
  sessionKey : Bytes
deriving DecidableEq, Repr

/-- The collaborators StartAuthSession calls, passed explicitly: the resource
validity check, WrapHandle(HandleNull), cryptComputeNonce, the
TPM2_StartAuthSession round trip (returning session handle and nonceTPM) and
cryptKDFa from the crypto adapter. -/
structure SessionDeps where
  checkResourceContextParam : ResourceCtx → Except String Unit
  wrapHandleNull : ResourceCtx
  computeNonce : Nat → Except String Bytes
  runStartAuthSession : ResourceCtx → ResourceCtx → Bytes → Nat → Nat →
    Except SessionError (Nat × Bytes)
  kdfa : Nat → Bytes → Bytes → Bytes → Bytes → Nat → Bytes

/-- Modelled from the spec: the digestSizes table is not under src/; the
supported digest algorithms and their sizes (SHA-1, SHA-256, SHA-384,
SHA-512). -/
def digestSizes (alg : Nat) : Option Nat :=
  if alg = 0x4 then some 20
  else if alg = 0xb then some 32
  else if alg = 0xc then some 48
  else if alg = 0xd then some 64
  else none

/-- The label "ATH" of the session-key KDFa derivation. -/
def labelATH : Bytes := [65, 84, 72]

/-- tpmImpl.StartAuthSession (cmds_session.go lines 13-86). -/
def startAuthSession (deps : SessionDeps) (tpmKey bind : Option ResourceCtx)
    (sessionType : Nat) (symmetric : Option SymDef) (authHash : Nat)
    (authValue : AuthValueArg) : Except SessionError StartedSession :=
  if tpmKey.isSome then
    .error (.invalidParam "no support for salted sessions yet")
  else
    match (match bind with
           | some b => deps.checkResourceContextParam b
           | none => .ok ()) with
    | .error e => .error (.other e)
    | .ok () =>
      if symmetric.isSome then
        .error (.invalidParam "no support for parameter / response encryption yet")
      else
        match digestSizes authHash with
        | none => .error (.invalidParam "unsupported authHash value")
        | some digestSize =>
          let salt : Bytes := []
          let tpmKey2 : ResourceCtx :=
            match tpmKey with
            | some k => k
            | none => ⟨HandleNull⟩
          match (match bind with
                 | some _ =>
                   match authValue with
                   | .str s2 => Except.ok s2
                   | .bytes b2 => Except.ok b2
                   | .nothing => Except.ok []
                   | .other => Except.error (SessionError.invalidParam "invalid auth value")
                 | none => Except.ok []) with
          | .error e => .error e
          | .ok authB =>
            let bind2 : ResourceCtx :=
              match bind with
              | some b => b
              | none => deps.wrapHandleNull
            match deps.computeNonce digestSize with
            | .error e => .error (.other ("cannot compute initial nonceCaller: " ++ e))
            | .ok nonceCaller =>
              match deps.runStartAuthSession tpmKey2 bind2 nonceCaller sessionType authHash with
              | .error e => .error e
              | .ok (sessionHandle, nonceTPM) =>
                let sessionKey :=
                  if tpmKey2.handle ≠ HandleNull ∨ bind2.handle ≠ HandleNull then
                    deps.kdfa authHash (authB ++ salt) labelATH nonceTPM nonceCaller
                      (digestSize * 8)
                  else []
                .ok ⟨sessionHandle, authHash, bind2.handle, nonceCaller, nonceTPM, sessionKey⟩

/-! ## Qualified names (util, ComputeQualifiedName) -/

/-- A TPM name: raw bytes, either a 4-byte handle or a 16-bit hash-algorithm
identifier followed by a digest of matching size. -/
abbrev TpmName := Bytes

/-- TPM_ALG_NULL. -/
def HashAlgorithmNull : Nat := 0x0010

/-- Modelled from the spec: tpm2.Name.IsHandle is not under src/; a handle
name is exactly 4 bytes. -/
def nameIsHandle (n : TpmName) : Bool := n.length = 4

/-- Modelled from the spec: tpm2.Name.IsValid is not under src/; a valid
name is a 4-byte handle or an algorithm identifier followed by a digest of
exactly that algorithm's size. -/
def nameIsValid (n : TpmName) : Bool :=
  if n.length = 4 then true
  else
    match n with
    | a :: b :: rest =>
      match digestSizes (a * 256 + b) with
      | some sz => rest.length = sz
      | none => false
    | _ => false

/-- Modelled from the spec: tpm2.Name.Algorithm is not under src/; the
leading algorithm identifier of a valid digest name, HashAlgorithmNull for
handle names and invalid names. -/
def nameAlgorithm (n : TpmName) : Nat :=
  if nameIsValid n ∧ ¬(nameIsHandle n = true) then
    match n with
    | a :: b :: _ => a * 256 + b
    | _ => HashAlgorithmNull
  else HashAlgorithmNull

/-- Modelled from the spec: HashAlgorithmId.Available is not under src/; the
digest algorithms linked into the implementation. -/
def algAvailable (a : Nat) : Bool := (digestSizes a).isSome

/-- computeOneQualifiedName (unnamed/part_000 lines 15-34): one step of the
qualified-name chain, parameterized by the digest function family `hashFn` of
the crypto adapter.  The resulting name is the marshalled algorithm followed
by H(parentQn or entity name). -/
def computeOneQualifiedName (hashFn : Nat → Bytes → Bytes) (entity : TpmName)
    (parentQn : TpmName) : Except String TpmName :=
  if nameAlgorithm entity = HashAlgorithmNull then .error "invalid name"
  else if ¬(algAvailable (nameAlgorithm entity) = true) then
    .error "name algorithm is not available"
  else if ¬(nameIsValid parentQn = true) then .error "invalid parent qualified name"
  else if nameAlgorithm parentQn ≠ HashAlgorithmNull ∧
          nameAlgorithm parentQn ≠ nameAlgorithm entity then
    .error "name algorithm mismatch"
  else
    .ok (be16 (nameAlgorithm entity) ++
         hashFn (nameAlgorithm entity) (parentQn ++ entity))

/-- The indexed ancestor fold of ComputeQualifiedName (unnamed/part_000
lines 43-49): each failure is wrapped with the ancestor index. -/
def qualifiedNameFold (hashFn : Nat → Bytes → Bytes) (i : Nat) (lastQn : TpmName) :
    List TpmName → Except String TpmName
  | [] => .ok lastQn
  | a :: rest =>
    match computeOneQualifiedName hashFn a lastQn with
    | .error e =>
      .error ("cannot compute intermediate QN for ancestor at index " ++
              toString i ++ ": " ++ e)
    | .ok q => qualifiedNameFold hashFn (i + 1) q rest

/-- ComputeQualifiedName (unnamed/part_000 lines 40-52): fold the ancestors
from the root qualified name, then bind the entity. -/
def ComputeQualifiedName (hashFn : Nat → Bytes → Bytes) (entity : TpmName)
    (rootQn : TpmName) (ancestors : List TpmName) : Except String TpmName :=
  match qualifiedNameFold hashFn 0 rootQn ancestors with
  | .error e => .error e
  | .ok lastQn => computeOneQualifiedName hashFn entity lastQn

/-! ## Object duplication wrappers (util/object.go) -/

/-- TPM_ALG_NULL as a symmetric object algorithm (SymObjectAlgorithmNull). -/
def SymObjectAlgorithmNull : Nat := 0x0010

/-- The KDFa label "STORAGE" (tpm2.StorageKey). -/
def labelSTORAGE : Bytes := [83, 84, 79, 82, 65, 71, 69]
/-- The KDFa label "INTEGRITY" (tpm2.IntegrityKey). -/
def labelINTEGRITY : Bytes := [73, 78, 84, 69, 71, 82, 73, 84, 89]

/-- A symmetric algorithm definition for an object (tpm2.SymDefObject,
reduced to the fields object.go uses: the algorithm and its key size). -/
structure SymDefObject where
  algorithm : Nat
  keyBits : Nat
deriving DecidableEq, Repr

/-- The parent public area as consumed by SensitiveToDuplicate: its name
algorithm and the symmetric algorithm of its asymmetric parameters
(parent.NameAlg and parent.Params.AsymDetail().Symmetric). -/
structure PublicArea where
  nameAlg : Nat
  symmetric : SymDefObject
deriving DecidableEq, Repr

/-- Modelled from the spec: tpm2.Sensitive and its mu marshalling are not
under src/; spec section 3: sensitive-type, auth value, seed value and the
type-specific sensitive composite, all but the type as sized buffers. -/
structure Sensitive where
  sensitiveType : Nat
  authValue : Bytes
  seedValue : Bytes
  sensitive : Bytes
deriving DecidableEq, Repr

/-- The crypto adapter consumed by the wrappers (spec section 6): digest,
HMAC, KDFa, symmetric encrypt/decrypt, block and digest sizes. -/
structure CryptoAdapter where
  hash : Nat → Bytes → Bytes
  hmac : Nat → Bytes → Bytes → Bytes
  kdfa : Nat → Bytes → Bytes → Bytes → Bytes → Nat → Bytes
  encrypt : Nat → Bytes → Bytes → Bytes → Bytes
  decrypt : Nat → Bytes → Bytes → Bytes → Bytes
  blockSize : Nat → Nat
  hashSize : Nat → Nat

/-- Wire form of tpm2.Sensitive: u16 type, sized auth value, sized seed,
sized sensitive composite. -/
def marshalSensitive (s : Sensitive) : Option Bytes := do
  let a ← sized16 s.authValue
  let sv ← sized16 s.seedValue
  let sc ← sized16 s.sensitive
  some (be16 (s.sensitiveType % 65536) ++ a ++ sv ++ sc)

/-- Unmarshal tpm2.Sensitive. -/
def unmarshalSensitive (b : Bytes) : Option (Sensitive × Bytes) := do
  let (t, b1) ← read16 b
  let (a, b2) ← readSized16 b1
  let (sv, b3) ← readSized16 b2
  let (sc, b4) ← readSized16 b3
  some (⟨t, a, sv, sc⟩, b4)

/-- The mu sized-structure wrapper around Sensitive (`tpm2:"sized"`):
u16 total size followed by the marshalled structure. -/
def marshalSizedSensitive (s : Sensitive) : Option Bytes := do
  let inner ← marshalSensitive s
  sized16 inner

/-- Unmarshal the sized Sensitive: read the size, restrict to that window,
unmarshal the structure; trailing bytes inside the window are an error. -/
def unmarshalSizedSensitive (b : Bytes) : Option Sensitive := do
  let (size, rest) ← read16 b
  let (w, _) ← readBytes size rest
  let (s, leftover) ← unmarshalSensitive w
  if leftover.length = 0 then some s else none

/-- ProduceOuterWrap (util/object.go lines 81-107): encrypt the data under
a KDFa storage key and prepend a sized integrity HMAC over the encrypted
data and the name.  `ivRand` stands for the random IV drawn when useIV is
set (duplication uses an all-zero IV). -/
def ProduceOuterWrap (ca : CryptoAdapter) (hashAlg : Nat) (symmetricAlg : SymDefObject)
    (name : Bytes) (seed : Bytes) (useIV : Bool) (ivRand : Bytes) (data : Bytes) :
    Option Bytes := do
  let iv := if useIV then ivRand else List.replicate (ca.blockSize symmetricAlg.algorithm) 0
  let symKey := ca.kdfa hashAlg seed labelSTORAGE name [] symmetricAlg.keyBits
  let data2 := ca.encrypt symmetricAlg.algorithm symKey iv data
  let data3 ←
    if useIV then do
      let sizedIV ← sized16 iv
      some (sizedIV ++ data2)
    else some data2
  let hmacKey := ca.kdfa hashAlg seed labelINTEGRITY [] [] (ca.hashSize hashAlg * 8)
  let integrity := ca.hmac hashAlg hmacKey (data3 ++ name)
  let sizedIntegrity ← sized16 integrity
  some (sizedIntegrity ++ data3)

/-- UnwrapOuter (util/object.go lines 30-70): split off the sized integrity
HMAC, check it over the remaining data and the name, then decrypt under the
KDFa storage key. -/
def UnwrapOuter (ca : CryptoAdapter) (hashAlg : Nat) (symmetricAlg : SymDefObject)
    (name : Bytes) (seed : Bytes) (useIV : Bool) (data : Bytes) :
    Except String Bytes :=
  match readSized16 data with
  | none => .error "cannot unpack integrity digest"
  | some (integrity, data2) =>
    let hmacKey := ca.kdfa hashAlg seed labelINTEGRITY [] [] (ca.hashSize hashAlg * 8)
    if ca.hmac hashAlg hmacKey (data2 ++ name) ≠ integrity then
      .error "integrity digest is invalid"
    else
      match (if useIV then readSized16 data2 else
             some (List.replicate (ca.blockSize symmetricAlg.algorithm) 0, data2)) with
      | none => .error "cannot unpack IV"
      | some (iv, data3) =>
        if useIV ∧ iv.length ≠ ca.blockSize symmetricAlg.algorithm then
          .error "IV has the wrong size"
        else
          let symKey := ca.kdfa hashAlg seed labelSTORAGE name [] symmetricAlg.keyBits
          .ok (ca.decrypt symmetricAlg.algorithm symKey iv data3)

/-- SensitiveToDuplicate (util/object.go lines 210-262): marshal the sized
sensitive, apply the inner wrapper (sized inner integrity digest under the
object's name algorithm, then symmetric encryption under innerSymKey, or
under the freshly drawn `randKey` when no key is supplied) if symmetricAlg
is non-null, and apply the outer wrapper if a seed is supplied.  Returns the
generated inner key (empty when the caller supplied one) and the duplication
blob. -/
def SensitiveToDuplicate (ca : CryptoAdapter) (sensitive : Sensitive) (name : Bytes)
    (parent : PublicArea) (seed : Bytes) (symmetricAlg : Option SymDefObject)
    (innerSymKey : Bytes) (randKey : Bytes) : Except String (Bytes × Bytes) :=
  let applyOuterWrapper := seed.length > 0
  match marshalSizedSensitive sensitive with
  | none => .error "cannot marshal sensitive"
  | some duplicate =>
    match (match symmetricAlg with
           | some symAlg =>
             if symAlg.algorithm ≠ SymObjectAlgorithmNull then
               match sized16 (ca.hash (nameAlgorithm name) (duplicate ++ name)) with
               | none => Except.error "cannot apply inner wrapper"
               | some sizedInnerIntegrity =>
                 let withIntegrity := sizedInnerIntegrity ++ duplicate
                 let key := if innerSymKey.length = 0 then randKey else innerSymKey
                 let keyOut : Bytes := if innerSymKey.length = 0 then randKey else []
                 Except.ok (keyOut,
                   ca.encrypt symAlg.algorithm key
                     (List.replicate (ca.blockSize symAlg.algorithm) 0) withIntegrity)
             else Except.ok (([] : Bytes), duplicate)
           | none => Except.ok (([] : Bytes), duplicate)) with
    | .error e => .error e
    | .ok (keyOut, duplicate2) =>
      if applyOuterWrapper then
        match ProduceOuterWrap ca parent.nameAlg parent.symmetric name seed false []
            duplicate2 with
        | none => .error "cannot produce outer wrapper"
        | some duplicate3 => .ok (keyOut, duplicate3)
      else .ok (keyOut, duplicate2)

/-- DuplicateToSensitive (util/object.go lines 152-198): remove the outer
wrapper when a seed is supplied, remove the inner wrapper (decrypt, split
off the sized inner integrity digest and check it) when symmetricAlg is
non-null, then unmarshal the sized sensitive. -/
def DuplicateToSensitive (ca : CryptoAdapter) (duplicate : Bytes) (name : Bytes)
    (parentNameAlg : Nat) (parentSymmetricAlg : SymDefObject) (seed : Bytes)
    (symmetricAlg : Option SymDefObject) (innerSymKey : Bytes) :
    Except String Sensitive :=
  match (if seed.length > 0 then
          UnwrapOuter ca parentNameAlg parentSymmetricAlg name seed false duplicate
         else .ok duplicate) with
  | .error e => .error ("cannot unwrap outer wrapper: " ++ e)
  | .ok duplicate2 =>
    match (match symmetricAlg with
           | some symAlg =>
             if symAlg.algorithm ≠ SymObjectAlgorithmNull then
               let decrypted := ca.decrypt symAlg.algorithm innerSymKey
                 (List.replicate (ca.blockSize symAlg.algorithm) 0) duplicate2
               match readSized16 decrypted with
               | none => Except.error "cannot unpack inner integrity digest"
               | some (innerIntegrity, rest) =>
                 if ca.hash (nameAlgorithm name) (rest ++ name) ≠ innerIntegrity then
                   Except.error "inner integrity digest is invalid"
                 else Except.ok rest
             else Except.ok duplicate2
           | none => Except.ok duplicate2) with
    | .error e => .error e
    | .ok duplicate3 =>
      match unmarshalSizedSensitive duplicate3 with
      | none => .error "cannot unmarhsal sensitive"
      | some s => .ok s

/-! ## SHA-256 and SHA-1 (offline policy digest computation) -/

/-- Big-endian encoding of a 64-bit value. -/
def be64 (n : Nat) : Bytes :=
  [n / 72057594037927936 % 256, n / 281474976710656 % 256,
   n / 1099511627776 % 256, n / 4294967296 % 256,
   n / 16777216 % 256, n / 65536 % 256, n / 256 % 256, n % 256]

/-- Rotate a 32-bit word right by n. -/
def rotr32 (n x : Nat) : Nat := x / 2 ^ n + x % 2 ^ n * 2 ^ (32 - n)

/-- Rotate a 32-bit word left by n. -/
def rotl32 (n x : Nat) : Nat := x % 2 ^ (32 - n) * 2 ^ n + x / 2 ^ (32 - n)

/-- Group bytes into big-endian 32-bit words. -/
def toWords32 : Bytes → List Nat
  | a :: b :: c :: d :: rest => (((a * 256 + b) * 256 + c) * 256 + d) :: toWords32 rest
  | _ => []

/-- Merkle-Damgard padding shared by SHA-1 and SHA-256: append 0x80, zero
bytes to 56 mod 64, then the bit length as 64-bit big-endian. -/
def shaPad (msg : Bytes) : Bytes :=
  msg ++ [128] ++ List.replicate ((120 - (msg.length + 1) % 64) % 64) 0 ++
    be64 (msg.length * 8)

/-- Split into 64-byte blocks (the fuel makes the recursion structural;
the byte count is always enough fuel). -/
def chunk64F : Nat → Bytes → List Bytes
  | 0, _ => []
  | n + 1, l => if l.length = 0 then [] else l.take 64 :: chunk64F n (l.drop 64)

/-- Split into 64-byte blocks. -/
def chunk64 (l : Bytes) : List Bytes := chunk64F l.length l

def sha256K : List Nat :=
  [1116352408, 1899447441, 3049323471, 3921009573, 961987163,
   1508970993, 2453635748, 2870763221, 3624381080, 310598401,
   607225278, 1426881987, 1925078388, 2162078206, 2614888103,
   3248222580, 3835390401, 4022224774, 264347078, 604807628,
   770255983, 1249150122, 1555081692, 1996064986, 2554220882,
   2821834349, 2952996808, 3210313671, 3336571891, 3584528711,
   113926993, 338241895, 666307205, 773529912, 1294757372,
   1396182291, 1695183700, 1986661051, 2177026350, 2456956037,
   2730485921, 2820302411, 3259730800, 3345764771, 3516065817,
   3600352804, 4094571909, 275423344, 430227734, 506948616,
   659060556, 883997877, 958139571, 1322822218, 1537002063,
   1747873779, 1955562222, 2024104815, 2227730452, 2361852424,
   2428436474, 2756734187, 3204031479, 3329325298]

def sha256H0 : List Nat :=
  [1779033703, 3144134277, 1013904242, 2773480762,
   1359893119, 2600822924, 528734635, 1541459225]

def smallSigma0 (x : Nat) : Nat := rotr32 7 x ^^^ rotr32 18 x ^^^ x / 2 ^ 3
def smallSigma1 (x : Nat) : Nat := rotr32 17 x ^^^ rotr32 19 x ^^^ x / 2 ^ 10
def bigSigma0 (x : Nat) : Nat := rotr32 2 x ^^^ rotr32 13 x ^^^ rotr32 22 x
def bigSigma1 (x : Nat) : Nat := rotr32 6 x ^^^ rotr32 11 x ^^^ rotr32 25 x
def shaCh (x y z : Nat) : Nat := x &&& y ^^^ ((x ^^^ 4294967295) &&& z)
def shaMaj (x y z : Nat) : Nat := x &&& y ^^^ x &&& z ^^^ y &&& z

/-- Extend the 16 message words to the full 64-entry schedule. -/
def sha256Extend : Nat → List Nat → List Nat
  | 0, w => w
  | n + 1, w =>
    let i := w.length
    let x := (smallSigma1 (w.getD (i - 2) 0) + w.getD (i - 7) 0 +
              smallSigma0 (w.getD (i - 15) 0) + w.getD (i - 16) 0) % 4294967296
    sha256Extend n (w ++ [x])

/-- One SHA-256 round. -/
def sha256Round (st : List Nat) (wk : Nat × Nat) : List Nat :=
  match st with
  | [a, b, c, d, e, f, g, h] =>
    let t1 := (h + bigSigma1 e + shaCh e f g + wk.2 + wk.1) % 4294967296
    let t2 := (bigSigma0 a + shaMaj a b c) % 4294967296
    [(t1 + t2) % 4294967296, a, b, c, (d + t1) % 4294967296, e, f, g]
  | other => other

/-- Compress one 64-byte block into the running state. -/
def sha256Compress (h : List Nat) (block : Bytes) : List Nat :=
  let w := sha256Extend 48 (toWords32 block)
  let st := (w.zip sha256K).foldl sha256Round h
  (h.zip st).map (fun p => (p.1 + p.2) % 4294967296)

/-- SHA-256 of a byte string. -/
def sha256 (msg : Bytes) : Bytes :=
  (((chunk64 (shaPad msg)).foldl sha256Compress sha256H0).map be32).flatten

def sha1H0 : List Nat :=
  [1732584193, 4023233417, 2562383102, 271733878, 3285377520]

/-- Extend the 16 message words to the 80-entry SHA-1 schedule. -/
def sha1Extend : Nat → List Nat → List Nat
  | 0, w => w
  | n + 1, w =>
    let i := w.length
    let x := rotl32 1 (w.getD (i - 3) 0 ^^^ w.getD (i - 8) 0 ^^^
                      w.getD (i - 14) 0 ^^^ w.getD (i - 16) 0)
    sha1Extend n (w ++ [x])

/-- One SHA-1 round (the round index selects the mixing function and
constant). -/
def sha1Round (st : List Nat) (iw : Nat × Nat) : List Nat :=
  match st with
  | [a, b, c, d, e] =>
    let i := iw.1
    let f :=
      if i < 20 then b &&& c ^^^ ((b ^^^ 4294967295) &&& d)
      else if i < 40 then b ^^^ c ^^^ d
      else if i < 60 then b &&& c ^^^ b &&& d ^^^ c &&& d
      else b ^^^ c ^^^ d
    let kk :=
      if i < 20 then 1518500249
      else if i < 40 then 1859775393
      else if i < 60 then 2400959708
      else 3395469782
    let t := (rotl32 5 a + f + e + kk + iw.2) % 4294967296
    [t, a, rotl32 30 b, c, d]
  | other => other

/-- Compress one 64-byte block into the running SHA-1 state. -/
def sha1Compress (h : List Nat) (block : Bytes) : List Nat :=
  let w := sha1Extend 64 (toWords32 block)
  let st := ((List.range 80).zip w).foldl sha1Round h
  (h.zip st).map (fun p => (p.1 + p.2) % 4294967296)

/-- SHA-1 of a byte string. -/
def sha1 (msg : Bytes) : Bytes :=
  (((chunk64 (shaPad msg)).foldl sha1Compress sha1H0).map be32).flatten

/-! ## Offline policy digest computation (policyutil) -/

/-- TPM_CC_PolicySecret. -/
def CommandPolicySecret : Nat := 0x151
/-- TPM_CC_PolicyAuthValue. -/
def CommandPolicyAuthValue : Nat := 0x16b
/-- TPM_CC_PolicyCommandCode. -/
def CommandPolicyCommandCode : Nat := 0x16c
/-- TPM_CC_NV_ChangeAuth. -/
def CommandNVChangeAuth : Nat := 0x13b

/-- The policy assertions exercised by the mixed-policy computation. -/
inductive PolicyElement where
  | secret (authName policyRef : Bytes)
  | authValue
  | commandCode (code : Nat)
deriving DecidableEq, Repr

/-- Modelled from the spec: the policyutil digest computation is not under
src/ (only its tests are); spec section 4.J: the trial-digest update rule of
each assertion, extending the running digest d with the command code and the
assertion's arguments. -/
def policyUpdate (hash : Bytes → Bytes) (d : Bytes) : PolicyElement → Bytes
  | .secret authName policyRef =>
    hash (hash (d ++ be32 CommandPolicySecret ++ authName) ++ policyRef)
  | .authValue => hash (d ++ be32 CommandPolicyAuthValue)
  | .commandCode code => hash (d ++ be32 CommandPolicyCommandCode ++ be32 code)

/-- Modelled from the spec: Policy.ComputeFor starts from the all-zero
digest of the algorithm's size and folds the ordered assertion list. -/
def computePolicy (hash : Bytes → Bytes) (digestSize : Nat)
    (policy : List PolicyElement) : Bytes :=
  policy.foldl (policyUpdate hash) (List.replicate digestSize 0)

/-- TPM2B name of the owner hierarchy handle (MakeHandleName(HandleOwner)). -/
def ownerName : Bytes := [0x40, 0x00, 0x00, 0x01]

/-- The ordered mixed policy of the test: PolicySecret(owner, "bar"),
PolicyAuthValue, PolicyCommandCode(NVChangeAuth). -/
def policyMixed : List PolicyElement :=
  [.secret ownerName [98, 97, 114], .authValue, .commandCode CommandNVChangeAuth]

/-! ## Supporting lemmas -/

theorem read16_be16 (n : Nat) (r : Bytes) : read16 (be16 n ++ r) = some (n % 65536, r) := by
  simp only [be16, read16, List.cons_append, List.nil_append]
  congr 1
  congr 1
  omega

theorem read32_be32 (n : Nat) (r : Bytes) : read32 (be32 n ++ r) = some (n % 4294967296, r) := by
  simp only [be32, read32, List.cons_append, List.nil_append]
  congr 1
  congr 1
  omega

theorem readBytes_append (xs r : Bytes) : readBytes xs.length (xs ++ r) = some (xs, r) := by
  simp [readBytes, List.take_left, List.drop_left]

theorem readBytes_append_of_eq {k : Nat} (xs r : Bytes) (h : xs.length = k) :
    readBytes k (xs ++ r) = some (xs, r) := by
  subst h; exact readBytes_append xs r

theorem readSized16_roundtrip (xs r : Bytes) (h : xs.length < 65536) :
    readSized16 (be16 xs.length ++ xs ++ r) = some (xs, r) := by
  simp only [readSized16, List.append_assoc, read16_be16, Option.bind_eq_bind,
    Option.some_bind]
  rw [Nat.mod_eq_of_lt h]
  exact readBytes_append xs r

/-- Well-formedness of one command auth entry: the Go field types bound the
values (uint32 handle, uint8 attributes) and the mu codec bounds the sized
buffers to 16-bit lengths. -/
def wfAuthCommand (a : AuthCommand) : Prop :=
  a.sessionHandle < 4294967296 ∧ a.sessionAttributes < 256 ∧
  a.nonce.length < 65536 ∧ a.hmac.length < 65536

instance (a : AuthCommand) : Decidable (wfAuthCommand a) := by
  unfold wfAuthCommand; infer_instance

theorem marshalAuthCommand_of_wf {a : AuthCommand} (h : wfAuthCommand a) :
    marshalAuthCommand a =
      some (be32 a.sessionHandle ++ (be16 a.nonce.length ++ a.nonce) ++
            [a.sessionAttributes] ++ (be16 a.hmac.length ++ a.hmac)) := by
  obtain ⟨h1, h2, h3, h4⟩ := h
  simp [marshalAuthCommand, sized16, h3, h4, Nat.mod_eq_of_lt h2]

theorem unmarshalAuthCommand_roundtrip {a : AuthCommand} {ba : Bytes} (hwf : wfAuthCommand a)
    (hm : marshalAuthCommand a = some ba) (r : Bytes) :
    unmarshalAuthCommand (ba ++ r) = some (a, r) := by
  obtain ⟨h1, h2, h3, h4⟩ := hwf
  rw [marshalAuthCommand_of_wf ⟨h1, h2, h3, h4⟩] at hm
  cases hm
  simp only [unmarshalAuthCommand, List.append_assoc, read32_be32, Option.bind_eq_bind,
    Option.some_bind, Nat.mod_eq_of_lt h1]
  rw [← List.append_assoc (be16 a.nonce.length) a.nonce, readSized16_roundtrip _ _ h3]
  simp only [Option.some_bind, readByte, List.cons_append, List.nil_append]
  rw [← List.append_assoc (be16 a.hmac.length) a.hmac, readSized16_roundtrip _ _ h4]
  simp

theorem marshalAuthCommand_length_pos {a : AuthCommand} {ba : Bytes}
    (hwf : wfAuthCommand a) (hm : marshalAuthCommand a = some ba) : 0 < ba.length := by
  rw [marshalAuthCommand_of_wf hwf] at hm
  cases hm
  simp [be32]

theorem parseCmdAuths_roundtrip :
    ∀ (auths : List AuthCommand) (acc : List AuthCommand) (ab : Bytes),
    marshalAuthArea auths = some ab →
    acc.length + auths.length ≤ 3 →
    (∀ a ∈ auths, wfAuthCommand a) →
    parseCmdAuths acc ab.length ab = .ok (acc ++ auths) := by
  intro auths
  induction auths with
  | nil =>
    intro acc ab hm _ _
    simp only [marshalAuthArea, Option.some.injEq] at hm
    cases hm
    simp [parseCmdAuths]
  | cons a rest ih =>
    intro acc ab hm hlen hwf
    simp only [marshalAuthArea, Option.bind_eq_bind] at hm
    cases hma : marshalAuthCommand a with
    | none => rw [hma] at hm; simp at hm
    | some ba =>
      rw [hma] at hm
      simp only [Option.some_bind] at hm
      cases hmr : marshalAuthArea rest with
      | none => rw [hmr] at hm; simp at hm
      | some br =>
        rw [hmr] at hm
        simp only [Option.some_bind, Option.some.injEq] at hm
        cases hm
        have hwa : wfAuthCommand a := hwf a (by simp)
        have hpos := marshalAuthCommand_length_pos hwa hma
        rw [parseCmdAuths]
        have hne : ¬((ba ++ br).length = 0) := by
          simp only [List.length_append]; omega
        have hacc : ¬(acc.length ≥ 3) := by
          simp only [List.length_cons] at hlen; omega
        simp only [hne, if_false, hacc]
        have hsub : (ba ++ br).length - ((ba ++ br).length - br.length) = br.length := by
          simp only [List.length_append]; omega
        split
        · rename_i heq
          rw [unmarshalAuthCommand_roundtrip hwa hma br] at heq
          exact absurd heq (by simp)
        · rename_i a2 br2 heq
          rw [unmarshalAuthCommand_roundtrip hwa hma br] at heq
          obtain ⟨rfl, rfl⟩ : a = a2 ∧ br = br2 := by
            simpa using heq
          rw [hsub]
          have := ih (acc ++ [a]) br hmr
            (by simp only [List.length_append, List.length_cons,
                  List.length_nil] at hlen ⊢; omega)
            (fun x hx => hwf x (by simp [hx]))
          simpa using this

theorem modM (a : Nat) : a % 4294967296 % 4294967296 = a % 4294967296 := by omega

theorem be16_length (n : Nat) : (be16 n).length = 2 := rfl

theorem be32_length (n : Nat) : (be32 n).length = 4 := rfl

theorem runCommandLoop_eq_none {maxS tries : Nat} {rcSeq : Nat → Nat}
    (h : decodeResponseCode (rcSeq (tries - 1)) = none) :
    runCommandLoop maxS rcSeq tries = (.ok (), tries) := by
  rw [runCommandLoop.eq_def, h]

theorem runCommandLoop_eq_stop {maxS tries : Nat} {rcSeq : Nat → Nat} {e : TPMErr}
    (h : decodeResponseCode (rcSeq (tries - 1)) = some e)
    (hge : tries ≥ maxS) :
    runCommandLoop maxS rcSeq tries = (.error e, tries) := by
  rw [runCommandLoop.eq_def, h]
  simp only [hge, if_true]

theorem runCommandLoop_eq_retry {maxS tries : Nat} {rcSeq : Nat → Nat} {e : TPMErr}
    (h : decodeResponseCode (rcSeq (tries - 1)) = some e)
    (hlt : ¬(tries ≥ maxS)) (hr : isRetryWarning e = true) :
    runCommandLoop maxS rcSeq tries = runCommandLoop maxS rcSeq (tries + 1) := by
  rw [runCommandLoop.eq_def, h]
  simp only [hlt, if_false, hr, if_true]

theorem runCommandLoop_eq_fail {maxS tries : Nat} {rcSeq : Nat → Nat} {e : TPMErr}
    (h : decodeResponseCode (rcSeq (tries - 1)) = some e)
    (hlt : ¬(tries ≥ maxS)) (hr : ¬(isRetryWarning e = true)) :
    runCommandLoop maxS rcSeq tries = (.error e, tries) := by
  rw [runCommandLoop.eq_def, h]
  simp only [hlt, if_false, hr]
  simp

theorem runCommandLoop_spec :
    ∀ (fuel maxS tries : Nat) (rcSeq : Nat → Nat),
    maxS - tries ≤ fuel → 1 ≤ tries → tries ≤ maxS →
    tries ≤ (runCommandLoop maxS rcSeq tries).2 ∧
    (runCommandLoop maxS rcSeq tries).2 ≤ maxS ∧
    (∀ i, tries - 1 ≤ i → i + 1 < (runCommandLoop maxS rcSeq tries).2 →
      ∃ e, decodeResponseCode (rcSeq i) = some e ∧ isRetryWarning e = true) ∧
    (∀ e, (runCommandLoop maxS rcSeq tries).1 = .error e →
      decodeResponseCode (rcSeq ((runCommandLoop maxS rcSeq tries).2 - 1)) = some e) ∧
    ((runCommandLoop maxS rcSeq tries).1 = .ok () →
      decodeResponseCode (rcSeq ((runCommandLoop maxS rcSeq tries).2 - 1)) = none) := by
  intro fuel
  induction fuel with
  | zero =>
    intro maxS tries rcSeq hfuel h1 hle
    cases hd : decodeResponseCode (rcSeq (tries - 1)) with
    | none =>
      rw [runCommandLoop_eq_none hd]
      refine ⟨le_refl _, hle, ?_, ?_, ?_⟩
      · intro i hi1 hi2; simp at hi2; omega
      · intro e he; simp at he
      · intro _; exact hd
    | some e =>
      rw [runCommandLoop_eq_stop hd (by omega)]
      refine ⟨le_refl _, hle, ?_, ?_, ?_⟩
      · intro i hi1 hi2; simp at hi2; omega
      · intro e2 he2
        simp only [Except.error.injEq] at he2
        rw [← he2]; exact hd
      · intro h; simp at h
  | succ fuel ih =>
    intro maxS tries rcSeq hfuel h1 hle
    cases hd : decodeResponseCode (rcSeq (tries - 1)) with
    | none =>
      rw [runCommandLoop_eq_none hd]
      refine ⟨le_refl _, hle, ?_, ?_, ?_⟩
      · intro i hi1 hi2; simp at hi2; omega
      · intro e he; simp at he
      · intro _; exact hd
    | some e =>
      by_cases hmax : tries ≥ maxS
      · rw [runCommandLoop_eq_stop hd hmax]
        refine ⟨le_refl _, hle, ?_, ?_, ?_⟩
        · intro i hi1 hi2; simp at hi2; omega
        · intro e2 he2
          simp only [Except.error.injEq] at he2
          rw [← he2]; exact hd
        · intro h; simp at h
      · by_cases hr : isRetryWarning e = true
        · rw [runCommandLoop_eq_retry hd hmax hr]
          have hrec := ih maxS (tries + 1) rcSeq (by omega) (by omega) (by omega)
          obtain ⟨r1, r2, r3, r4, r5⟩ := hrec
          refine ⟨by omega, r2, ?_, r4, r5⟩
          intro i hi1 hi2
          by_cases hieq : i = tries - 1
          · subst hieq
            exact ⟨e, hd, hr⟩
          · exact r3 i (by omega) hi2
        · rw [runCommandLoop_eq_fail hd hmax hr]
          refine ⟨le_refl _, hle, ?_, ?_, ?_⟩
          · intro i hi1 hi2; simp at hi2; omega
          · intro e2 he2
            simp only [Except.error.injEq] at he2
            rw [← he2]; exact hd
          · intro h; simp at h

/-! ## Claim theorems -/

/-- C1: the code under test accepts a TPM_ST_SESSIONS response packet carrying
the nonzero response code 0x88e: ResponsePacket.Unmarshal returns the decoded
response code with no error, contradicting the claim (and the repository's own
test TestUnmarshalResponsePacketUnsuccessfulWithSessions, which expects this
packet to be rejected). -/
theorem c1_sessions_error_packet_accepted :
    responsePacketUnmarshal 0 [0x80, 0x02, 0x00, 0x00, 0x00, 0x0a, 0x00, 0x00, 0x08, 0x8e] =
      .ok ⟨0x88e, [], [], []⟩ := by
  rfl

/-- C3: for every command code, handle block of numHandles 4-byte handles,
auth area of at most 3 well-formed entries and parameter bytes, unmarshalling
the packet produced by MarshalCommandPacket with UnmarshalPayload(numHandles)
succeeds and returns exactly the same handle bytes, auth area entries and
parameter bytes (well-formed: field values within their Go types and the
packet fitting the 32-bit size field). -/
theorem c3_command_packet_roundtrip
    (command numHandles : Nat) (handles : Bytes) (authArea : List AuthCommand)
    (parameters : Bytes) (packet : Bytes)
    (hhs : handles.length = numHandles * 4)
    (hn : authArea.length ≤ 3)
    (hwf : ∀ a ∈ authArea, wfAuthCommand a)
    (hm : marshalCommandPacket command handles authArea parameters = some packet)
    (hsz : packet.length < 4294967296) :
    commandUnmarshalPayload numHandles packet = .ok ⟨handles, authArea, parameters⟩ := by
  by_cases hA : authArea.length > 0
  · simp only [marshalCommandPacket, hA, if_pos, Option.bind_eq_bind, Option.some_bind] at hm
    cases hab : marshalAuthArea authArea with
    | none => rw [hab] at hm; simp at hm
    | some aBytes =>
      rw [hab] at hm
      simp only [Option.some_bind, Option.some.injEq] at hm
      subst hm
      simp only [List.length_append, be16_length, be32_length] at hsz
      have haL : aBytes.length % 4294967296 = aBytes.length := Nat.mod_eq_of_lt (by omega)
      simp only [commandUnmarshalPayload, List.append_assoc, read16_be16, read32_be32,
        modM, haL]
      simp only [List.length_append, be16_length, be32_length]
      rw [if_neg (by omega)]
      have hpa := parseCmdAuths_roundtrip authArea [] aBytes hab (by simpa using hn) hwf
      simp only [readBytes_append_of_eq handles _ hhs, read32_be32, haL, List.take_left,
        List.drop_left, hpa, List.nil_append]
      norm_num [TagSessions]
  · have hA0 : authArea = [] := by
      cases authArea with
      | nil => rfl
      | cons x t => simp at hA
    subst hA0
    simp only [marshalCommandPacket, Option.bind_eq_bind, Option.some_bind,
      List.length_nil, gt_iff_lt, Nat.lt_irrefl, if_false, Option.some.injEq] at hm
    subst hm
    simp only [List.length_append, be16_length, be32_length] at hsz
    simp only [commandUnmarshalPayload, List.append_assoc, read16_be16, read32_be32,
      modM]
    simp only [List.length_append, be16_length, be32_length]
    rw [if_neg (by omega)]
    simp only [readBytes_append_of_eq handles _ hhs]
    norm_num [TagSessions, TagNoSessions]

/-- C3 witness: the roundtrip theorem applied at a concrete Unseal command
packet with one handle, one auth entry and two parameter bytes. -/
theorem c3_command_packet_roundtrip_witness :
    commandUnmarshalPayload 1
      [128, 2, 0, 0, 0, 34, 0, 0, 1, 94, 1, 2, 3, 4, 0, 0, 0, 14, 2, 0, 0, 1,
       0, 2, 1, 2, 64, 0, 3, 9, 9, 9, 7, 7] =
      .ok ⟨[1, 2, 3, 4], [⟨0x02000001, [1, 2], 0x40, [9, 9, 9]⟩], [7, 7]⟩ :=
  c3_command_packet_roundtrip 0x15e 1 [1, 2, 3, 4] [⟨0x02000001, [1, 2], 0x40, [9, 9, 9]⟩]
    [7, 7]
    [128, 2, 0, 0, 0, 34, 0, 0, 1, 94, 1, 2, 3, 4, 0, 0, 0, 14, 2, 0, 0, 1,
     0, 2, 1, 2, 64, 0, 3, 9, 9, 9, 7, 7]
    (by decide) (by decide) (by decide) (by rfl) (by decide)

/-- C5: TPMContext.RunCommand makes at most maxSubmissions submissions
(default 5, as configured by NewTPMContext); every submission other than the
last was answered by one of the retry warnings WarningYielded, WarningTesting
or WarningRetry (so any other TPM error is surfaced immediately after the
first response carrying it, and only the three warnings trigger
resubmission); and a reported error is the decoded code of the last
response. -/
theorem c5_run_command_retry (maxS : Nat) (rcSeq : Nat → Nat) (h1 : 1 ≤ maxS) :
    (runCommand maxS rcSeq).2 ≤ maxS ∧
    (∀ i, i + 1 < (runCommand maxS rcSeq).2 →
      ∃ e, decodeResponseCode (rcSeq i) = some e ∧ isRetryWarning e = true) ∧
    (∀ e, (runCommand maxS rcSeq).1 = .error e →
      decodeResponseCode (rcSeq ((runCommand maxS rcSeq).2 - 1)) = some e) ∧
    ((runCommand maxS rcSeq).1 = .ok () →
      decodeResponseCode (rcSeq ((runCommand maxS rcSeq).2 - 1)) = none) ∧
    defaultMaxSubmissions = 5 := by
  have hs := runCommandLoop_spec (maxS - 1) maxS 1 rcSeq (by omega) (le_refl 1) h1
  obtain ⟨s1, s2, s3, s4, s5⟩ := hs
  exact ⟨s2, fun i hi => s3 i (by omega) hi, s4, s5, rfl⟩

/-- C5 witness: with the default 5 submissions and a TPM that yields once
(rc 0x908) and then succeeds, the loop submits twice and the retry theorem
holds at this input. -/
theorem c5_run_command_retry_witness :
    (runCommand 5 (fun i => if i = 0 then 2312 else 0)).2 ≤ 5 ∧
    (∀ i, i + 1 < (runCommand 5 (fun i => if i = 0 then 2312 else 0)).2 →
      ∃ e, decodeResponseCode (if i = 0 then 2312 else 0) = some e ∧ isRetryWarning e = true) ∧
    (∀ e, (runCommand 5 (fun i => if i = 0 then 2312 else 0)).1 = .error e →
      decodeResponseCode
        (if (runCommand 5 (fun i => if i = 0 then 2312 else 0)).2 - 1 = 0 then 2312 else 0) =
        some e) ∧
    ((runCommand 5 (fun i => if i = 0 then 2312 else 0)).1 = .ok () →
      decodeResponseCode
        (if (runCommand 5 (fun i => if i = 0 then 2312 else 0)).2 - 1 = 0 then 2312 else 0) =
        none) ∧
    defaultMaxSubmissions = 5 :=
  c5_run_command_retry 5 (fun i => if i = 0 then 2312 else 0) (by decide)

/-- C2 counterexample: with an exclusive session cached (session 0, flag
set), processing the pending response of a Startup command does NOT clear the
host-side exclusivity flag, and the cache is kept, refuting the claim that
the four non-auditable commands trigger the host-side clearing. -/
theorem c2_startup_does_not_clear_counterexample :
    ((processResponseAuth (fun ss => .ok ss)
        ⟨fun n => if n = 0 then some ⟨true⟩ else none, some 0, some 7⟩
        ⟨7, CommandStartup, [], .ok ()⟩).1.sessions 0 = some ⟨true⟩) ∧
    ((processResponseAuth (fun ss => .ok ss)
        ⟨fun n => if n = 0 then some ⟨true⟩ else none, some 0, some 7⟩
        ⟨7, CommandStartup, [], .ok ()⟩).1.lastExclusiveSession = some 0) := by
  constructor <;> rfl

/-- C2 (amended): whenever the dispatcher has cached a last-exclusive
session, the host-side clearing step of processResponseAuth clears that
session's exclusivity flag (and drops the cache) exactly for commands OTHER
than Startup, ContextLoad, ContextSave and FlushContext; processing the
response of one of those four commands leaves the flag and the cache
untouched (shown through processResponseAuth with an auth-area processing
step that leaves the store unchanged). -/
theorem c2_host_side_exclusivity_clearing
    (pa : SessionStore → Except String SessionStore) (st : ExecState) (r : RspCtx) (s : Nat)
    (hp : st.pendingResponse = some r.id)
    (hl : st.lastExclusiveSession = some s) :
    (isSessionAllowed r.commandCode = false ↔
      (r.commandCode = CommandStartup ∨ r.commandCode = CommandContextLoad ∨
       r.commandCode = CommandContextSave ∨ r.commandCode = CommandFlushContext)) ∧
    (isSessionAllowed r.commandCode = true →
      (clearLastExclusive r.commandCode st).sessions s =
        (st.sessions s).map (fun d => { d with isExclusive := false }) ∧
      (clearLastExclusive r.commandCode st).lastExclusiveSession = none ∧
      (∀ t, t ≠ s → (clearLastExclusive r.commandCode st).sessions t = st.sessions t)) ∧
    (isSessionAllowed r.commandCode = false →
      clearLastExclusive r.commandCode st = st ∧
      (pa st.sessions = .ok st.sessions →
       findExclusiveSession st.sessions r.sessionIds = none →
       (processResponseAuth pa st r).1.sessions s = st.sessions s ∧
       (processResponseAuth pa st r).1.lastExclusiveSession = some s)) := by
  refine ⟨?_, ?_, ?_⟩
  · unfold isSessionAllowed
    by_cases h1 : r.commandCode = CommandStartup
    · simp [h1]
    by_cases h2 : r.commandCode = CommandContextLoad
    · simp [h1, h2]
    by_cases h3 : r.commandCode = CommandContextSave
    · simp [h1, h2, h3]
    by_cases h4 : r.commandCode = CommandFlushContext
    · simp [h1, h2, h3, h4]
    simp [h1, h2, h3, h4]
  · intro hall
    unfold clearLastExclusive
    rw [hl]
    have hcond : (isSessionAllowed r.commandCode = true) ∧ ¬((some s : Option Nat) = none) := by
      exact ⟨hall, by simp⟩
    simp only [hl, hall, ne_eq, if_pos hcond]
    refine ⟨by simp, rfl, ?_⟩
    intro t ht
    simp [ht]
  · intro hnall
    have hcl : clearLastExclusive r.commandCode st = st := by
      unfold clearLastExclusive
      rw [hnall]
      simp
    refine ⟨hcl, ?_⟩
    intro hpa hfind
    unfold processResponseAuth
    rw [hp]
    simp only [ne_eq, not_true_eq_false, if_false, hcl]
    simp only [hpa, hfind]
    exact ⟨trivial, hl⟩

/-- C2 witness: the amended theorem applied with session 1 cached exclusive
and a pending GetCapability response (command 0x17a, which allows sessions):
the host-side clearing step resets the cached session's flag. -/
theorem c2_host_side_exclusivity_clearing_witness :
    (clearLastExclusive 0x17a
      ⟨fun n => if n = 1 then some ⟨true⟩ else none, some 1, some 3⟩).sessions 1 =
      ((fun n => if n = 1 then some (⟨true⟩ : SessionData) else none) 1).map
        (fun d => { d with isExclusive := false }) :=
  ((c2_host_side_exclusivity_clearing (fun ss => .ok ss)
      ⟨fun n => if n = 1 then some ⟨true⟩ else none, some 1, some 3⟩
      ⟨3, 0x17a, [], .ok ()⟩ 1 rfl rfl).2.1 rfl).1

theorem chunks_ne_nil (m r off : Nat) : chunks m r off ≠ [] := by
  match m with
  | 0 => simp [chunks]
  | m + 1 =>
    rw [chunks]
    split <;> simp

theorem readMultipleRun_eq_applyChunk_last (fn : ExecFn) (maxSize : Nat)
    (st : ReadMultipleState) (sess : List (Option SessionCtx))
    (h : st.remaining ≤ maxSize) :
    readMultipleRun fn maxSize st sess = applyChunk fn sess (st.remaining, st.total) st := by
  simp only [readMultipleRun, applyChunk]
  rw [if_neg (by omega)]

theorem readMultipleRun_eq_applyChunk_mid (fn : ExecFn) (maxSize : Nat)
    (st : ReadMultipleState) (sess : List (Option SessionCtx))
    (h : st.remaining > maxSize) :
    readMultipleRun fn maxSize st sess = applyChunk fn sess (maxSize, st.total) st := by
  simp only [readMultipleRun, applyChunk]
  rw [if_pos (by omega)]

theorem execMultipleLoop_eq_runChunks :
    ∀ (fuel : Nat) (fn : ExecFn) (maxSize : Nat) (cont orig : List (Option SessionCtx))
      (st : ReadMultipleState),
    1 ≤ maxSize → st.remaining ≤ fuel →
    execMultipleLoop fn maxSize false cont orig fuel st =
      runChunks fn cont orig (chunks maxSize st.remaining st.total) st := by
  intro fuel
  induction fuel with
  | zero =>
    intro fn maxSize cont orig st hm hr
    obtain ⟨m, rfl⟩ : ∃ m, maxSize = m + 1 := ⟨maxSize - 1, by omega⟩
    have h0 : st.remaining = 0 := by omega
    rw [execMultipleLoop]
    rw [if_pos (by simp [readMultipleLast]; omega)]
    rw [chunks, if_pos (by omega)]
    rw [runChunks]
    exact readMultipleRun_eq_applyChunk_last fn (m + 1) st orig (by omega)
  | succ fuel ih =>
    intro fn maxSize cont orig st hm hr
    obtain ⟨m, rfl⟩ : ∃ m, maxSize = m + 1 := ⟨maxSize - 1, by omega⟩
    by_cases hlast : st.remaining ≤ m + 1
    · rw [execMultipleLoop]
      rw [if_pos (by simp [readMultipleLast]; omega)]
      rw [chunks, if_pos hlast]
      rw [runChunks]
      exact readMultipleRun_eq_applyChunk_last fn (m + 1) st orig hlast
    · rw [execMultipleLoop]
      rw [if_neg (by simp [readMultipleLast]; omega)]
      rw [if_neg (by simp)]
      rw [chunks, if_neg hlast]
      rw [readMultipleRun_eq_applyChunk_mid fn (m + 1) st cont (by omega)]
      cases hch : chunks (m + 1) (st.remaining - (m + 1)) (st.total + (m + 1)) with
      | nil => exact absurd hch (chunks_ne_nil _ _ _)
      | cons c2 rest2 =>
        rw [runChunks]
        · cases hfn : applyChunk fn cont (m + 1, st.total) st with
          | error e => rfl
          | ok st2 =>
            have hst2r : st2.remaining = st.remaining - (m + 1) := by
              simp only [applyChunk] at hfn
              cases hcall : fn (m + 1, st.total).1 (m + 1, st.total).2 cont with
              | error e => rw [hcall] at hfn; simp at hfn
              | ok tmp =>
                rw [hcall] at hfn
                simp only [Except.ok.injEq] at hfn
                rw [← hfn]
            have hst2t : st2.total = st.total + (m + 1) := by
              simp only [applyChunk] at hfn
              cases hcall : fn (m + 1, st.total).1 (m + 1, st.total).2 cont with
              | error e => rw [hcall] at hfn; simp at hfn
              | ok tmp =>
                rw [hcall] at hfn
                simp only [Except.ok.injEq] at hfn
                rw [← hfn]
            have := ih fn (m + 1) cont orig st2 hm (by omega)
            rw [hst2r, hst2t, hch] at this
            exact this
        · simp

/-- The sizes of the chunk schedule: every chunk is at most maxSize bytes
(for a nonzero maxSize). -/
theorem chunks_size_le :
    ∀ (r m off : Nat), 1 ≤ m → ∀ c ∈ chunks m r off, c.1 ≤ m := by
  intro r
  induction r using Nat.strong_induction_on with
  | _ r ih =>
    intro m off hm c hc
    obtain ⟨m2, rfl⟩ : ∃ m2, m = m2 + 1 := ⟨m - 1, by omega⟩
    rw [chunks] at hc
    by_cases hr : r ≤ m2 + 1
    · rw [if_pos hr] at hc
      simp at hc
      subst hc
      exact hr
    · rw [if_neg hr] at hc
      simp only [List.mem_cons] at hc
      cases hc with
      | inl h => subst h; exact le_refl _
      | inr h => exact ih (r - (m2 + 1)) (by omega) (m2 + 1) (off + (m2 + 1)) hm c h

/-- The chunk schedule covers the data exactly: the chunk sizes add up to the
total size. -/
theorem chunks_size_sum :
    ∀ (r m off : Nat), 1 ≤ m → ((chunks m r off).map Prod.fst).sum = r := by
  intro r
  induction r using Nat.strong_induction_on with
  | _ r ih =>
    intro m off hm
    obtain ⟨m2, rfl⟩ : ∃ m2, m = m2 + 1 := ⟨m - 1, by omega⟩
    rw [chunks]
    by_cases hr : r ≤ m2 + 1
    · rw [if_pos hr]; simp
    · rw [if_neg hr]
      simp only [List.map_cons, List.sum_cons]
      rw [ih (r - (m2 + 1)) (by omega) (m2 + 1) (off + (m2 + 1)) hm]
      omega

/-- C6 counterexample: a read-multiple operation whose data fits in a single
chunk (size 1, maxBufferSize 8) run with a policy session succeeds - the
helper does NOT reject the policy session, refuting the unconditional
rejection stated by the claim. -/
theorem c6_policy_session_single_chunk_counterexample :
    readMultipleHelper 1 8 (fun _ _ _ => .ok [7])
      [some ⟨some ⟨SessionTypePolicy⟩, 0⟩] = .ok [7] := by
  rfl

/-- C6 (amended): for a read-multiple operation with usable sessions, when no
policy session is supplied the helper issues exactly one command per chunk of
the schedule - every chunk at most maxBufferSize bytes, the chunk sizes
covering the data - with the continue-session attribute forced set on the
sessions of every command except the last, and the last command running with
the caller's original session contexts; when a policy session is supplied and
more than one command is required, it fails with the policy-session error
before issuing any command. -/
theorem c6_read_multiple_chunking
    (size maxSize : Nat) (fn : ExecFn) (sessions cont : List (Option SessionCtx))
    (hm : 1 ≤ maxSize) :
    (∀ c ∈ chunks maxSize size 0, c.1 ≤ maxSize) ∧
    ((chunks maxSize size 0).map Prod.fst).sum = size ∧
    (prepareSessions sessions = .ok (false, cont) →
      readMultipleHelper size maxSize fn sessions =
        match runChunks fn cont sessions (chunks maxSize size 0)
            ⟨List.replicate size 0, 0, size⟩ with
        | .error e => .error e
        | .ok st => .ok st.data) ∧
    (prepareSessions sessions = .ok (true, cont) → size > maxSize →
      readMultipleHelper size maxSize fn sessions =
        .error "cannot use a policy session for authorization") := by
  refine ⟨chunks_size_le size maxSize 0 hm, chunks_size_sum size maxSize 0 hm, ?_, ?_⟩
  · intro hprep
    unfold readMultipleHelper execMultipleHelper
    rw [hprep]
    show (match execMultipleLoop fn maxSize false cont sessions (size + 1)
        ⟨List.replicate size 0, 0, size⟩ with
      | Except.error e => (Except.error e : Except String Bytes)
      | Except.ok st => Except.ok st.data) = _
    rw [execMultipleLoop_eq_runChunks (size + 1) fn maxSize cont sessions
      ⟨List.replicate size 0, 0, size⟩ hm (by simp)]
  · intro hprep hgt
    unfold readMultipleHelper execMultipleHelper
    rw [hprep]
    show (match execMultipleLoop fn maxSize true cont sessions (size + 1)
        ⟨List.replicate size 0, 0, size⟩ with
      | Except.error e => (Except.error e : Except String Bytes)
      | Except.ok st => Except.ok st.data) = _
    rw [execMultipleLoop.eq_def]
    have hcond : readMultipleLast maxSize (⟨List.replicate size 0, 0, size⟩ : ReadMultipleState) = false := by
      simp only [readMultipleLast, decide_eq_false_iff_not]
      omega
    simp [hcond]

/-- C6 witness: the amended theorem applied with size 3, maxBufferSize 1 and
one policy session; the multi-chunk policy rejection fires. -/
theorem c6_read_multiple_chunking_witness :
    readMultipleHelper 3 1 (fun _ _ _ => .ok [9])
      [some ⟨some ⟨SessionTypePolicy⟩, 0⟩] =
      .error "cannot use a policy session for authorization" :=
  (c6_read_multiple_chunking 3 1 (fun _ _ _ => .ok [9])
      [some ⟨some ⟨SessionTypePolicy⟩, 0⟩]
      [some ⟨some ⟨SessionTypePolicy⟩, AttrContinueSession⟩] (by decide)).2.2.2
    (by rfl) (by decide)

/-- C10: when the remaining data fits in a single chunk (size at most
maxBufferSize), the read-multiple helper accepts any usable sessions -
policy sessions included - and issues exactly one command with the caller's
original session contexts (original attributes preserved). -/
theorem c10_single_chunk_uses_original_sessions
    (size maxSize : Nat) (fn : ExecFn) (sessions : List (Option SessionCtx))
    (hasPolicy : Bool) (cont : List (Option SessionCtx))
    (hsz : size ≤ maxSize)
    (hprep : prepareSessions sessions = .ok (hasPolicy, cont)) :
    readMultipleHelper size maxSize fn sessions =
      (fn size 0 sessions).map (fun tmp => copyInto (List.replicate size 0) 0 tmp) := by
  unfold readMultipleHelper execMultipleHelper
  rw [hprep]
  show (match execMultipleLoop fn maxSize hasPolicy cont sessions (size + 1)
      ⟨List.replicate size 0, 0, size⟩ with
    | Except.error e => (Except.error e : Except String Bytes)
    | Except.ok st => Except.ok st.data) = _
  rw [execMultipleLoop.eq_def]
  have hcond : readMultipleLast maxSize (⟨List.replicate size 0, 0, size⟩ : ReadMultipleState) = true := by
    simp only [readMultipleLast, decide_eq_true_eq]
    omega
  simp only [hcond, eq_self_iff_true, if_true]
  rw [readMultipleRun_eq_applyChunk_last fn maxSize _ sessions hsz]
  simp only [applyChunk]
  cases hfn : fn size 0 sessions with
  | error e => simp [hfn, Except.map]
  | ok tmp => simp [hfn, Except.map]

/-- C10 witness: a single-chunk read (size 2, maxBufferSize 8) with a policy
session succeeds through the one command run with the original sessions. -/
theorem c10_single_chunk_uses_original_sessions_witness :
    readMultipleHelper 2 8 (fun _ _ _ => .ok [5, 6])
      [some ⟨some ⟨SessionTypePolicy⟩, 0⟩] =
      ((fun (_ _ : Nat) (_ : List (Option SessionCtx)) =>
          (Except.ok [5, 6] : Except String Bytes)) 2 0
        [some ⟨some ⟨SessionTypePolicy⟩, 0⟩]).map
        (fun tmp => copyInto (List.replicate 2 0) 0 tmp) :=
  c10_single_chunk_uses_original_sessions 2 8
    (fun _ _ _ => .ok [5, 6]) [some ⟨some ⟨SessionTypePolicy⟩, 0⟩]
    true [some ⟨some ⟨SessionTypePolicy⟩, AttrContinueSession⟩]
    (by decide) (by rfl)

/-- C7 counterexample: a concrete StartAuthSession call with a non-nil
tpmKey is rejected with InvalidParamError "no support for salted sessions
yet" - the command is never sent and no salt is generated, refuting the
claim that salted sessions are supported. -/
theorem c7_salted_session_rejected_counterexample :
    startAuthSession
      ⟨fun _ => .ok (), ⟨HandleNull⟩, fun n => .ok (List.replicate n 0),
       fun _ _ _ _ _ => .ok (0x02000000, []), fun _ _ _ _ _ _ => []⟩
      (some ⟨0x81000001⟩) none SessionTypeHMAC none 0xb .nothing =
      .error (.invalidParam "no support for salted sessions yet") := by
  rfl

/-- C7 (amended): for every call to StartAuthSession with a non-nil tpmKey,
the session engine returns InvalidParamError "no support for salted sessions
yet" without sending the command - salted sessions are rejected, not
supported. -/
theorem c7_salted_sessions_not_supported
    (deps : SessionDeps) (tpmKey bind : Option ResourceCtx)
    (sessionType : Nat) (symmetric : Option SymDef) (authHash : Nat)
    (authValue : AuthValueArg)
    (h : tpmKey.isSome) :
    startAuthSession deps tpmKey bind sessionType symmetric authHash authValue =
      .error (.invalidParam "no support for salted sessions yet") := by
  unfold startAuthSession
  rw [if_pos h]

/-- C7 witness: the amended theorem applied at a concrete salted-session
call. -/
theorem c7_salted_sessions_not_supported_witness :
    startAuthSession
      ⟨fun _ => .ok (), ⟨HandleNull⟩, fun n => .ok (List.replicate n 0),
       fun _ _ _ _ _ => .ok (0x02000000, []), fun _ _ _ _ _ _ => []⟩
      (some ⟨0x81000002⟩) (some ⟨0x40000001⟩) SessionTypePolicy none 0x4 (.str [97]) =
      .error (.invalidParam "no support for salted sessions yet") :=
  c7_salted_sessions_not_supported
    ⟨fun _ => .ok (), ⟨HandleNull⟩, fun n => .ok (List.replicate n 0),
     fun _ _ _ _ _ => .ok (0x02000000, []), fun _ _ _ _ _ _ => []⟩
    (some ⟨0x81000002⟩) (some ⟨0x40000001⟩) SessionTypePolicy none 0x4 (.str [97])
    (by rfl)

theorem qualifiedNameFold_ok_index {hashFn : Nat → Bytes → Bytes} :
    ∀ (as : List TpmName) (i j : Nat) (q0 q : TpmName),
    qualifiedNameFold hashFn i q0 as = .ok q ↔ qualifiedNameFold hashFn j q0 as = .ok q := by
  intro as
  induction as with
  | nil => intro i j q0 q; rfl
  | cons a rest ih =>
    intro i j q0 q
    simp only [qualifiedNameFold]
    cases computeOneQualifiedName hashFn a q0 with
    | error e => simp
    | ok q1 => exact ih (i + 1) (j + 1) q1 q

theorem qualifiedNameFold_append {hashFn : Nat → Bytes → Bytes} :
    ∀ (xs ys : List TpmName) (i : Nat) (q0 : TpmName),
    qualifiedNameFold hashFn i q0 (xs ++ ys) =
      match qualifiedNameFold hashFn i q0 xs with
      | .error e => .error e
      | .ok q => qualifiedNameFold hashFn (i + xs.length) q ys := by
  intro xs
  induction xs with
  | nil => intro ys i q0; simp [qualifiedNameFold]
  | cons x rest ih =>
    intro ys i q0
    simp only [List.cons_append, qualifiedNameFold]
    cases h1 : computeOneQualifiedName hashFn x q0 with
    | error e => rfl
    | ok q1 =>
      show qualifiedNameFold hashFn (i + 1) q1 (rest ++ ys) =
        match qualifiedNameFold hashFn (i + 1) q1 rest with
        | Except.error e => Except.error e
        | Except.ok q => qualifiedNameFold hashFn (i + (x :: rest).length) q ys
      rw [ih ys (i + 1) q1]
      cases hf : qualifiedNameFold hashFn (i + 1) q1 rest with
      | error e => rfl
      | ok q2 =>
        show qualifiedNameFold hashFn (i + 1 + rest.length) q2 ys =
          qualifiedNameFold hashFn (i + (x :: rest).length) q2 ys
        have harith : i + 1 + rest.length = i + (x :: rest).length := by
          simp only [List.length_cons]; omega
        rw [harith]

theorem computeQualifiedName_ok_iff {hashFn : Nat → Bytes → Bytes}
    (entity rootQn qn : TpmName) (as : List TpmName) :
    ComputeQualifiedName hashFn entity rootQn as = .ok qn ↔
      ∃ l, qualifiedNameFold hashFn 0 rootQn as = .ok l ∧
           computeOneQualifiedName hashFn entity l = .ok qn := by
  unfold ComputeQualifiedName
  cases h : qualifiedNameFold hashFn 0 rootQn as with
  | error e => simp
  | ok l => simp

/-- C8: computing the qualified name of c from the root with the full
ancestor list [pre, ak, post] agrees with first computing the intermediate
qualified name of ak from the root with ancestors pre and then computing the
qualified name of c from that intermediate value with ancestors post: the
two computations succeed on exactly the same inputs, with the same final
qualified name. -/
theorem c8_qualified_name_chain_split (hashFn : Nat → Bytes → Bytes)
    (rootQn : TpmName) (pre : List TpmName) (ak : TpmName) (post : List TpmName)
    (c : TpmName) (qn : TpmName) :
    ComputeQualifiedName hashFn c rootQn (pre ++ ak :: post) = .ok qn ↔
      ∃ q, ComputeQualifiedName hashFn ak rootQn pre = .ok q ∧
           ComputeQualifiedName hashFn c q post = .ok qn := by
  rw [computeQualifiedName_ok_iff]
  constructor
  · rintro ⟨l, hfold, hc⟩
    rw [qualifiedNameFold_append] at hfold
    cases hpre : qualifiedNameFold hashFn 0 rootQn pre with
    | error e => rw [hpre] at hfold; simp at hfold
    | ok q1 =>
      rw [hpre] at hfold
      simp only [] at hfold
      rw [qualifiedNameFold] at hfold
      cases hak : computeOneQualifiedName hashFn ak q1 with
      | error e => rw [hak] at hfold; simp at hfold
      | ok q2 =>
        rw [hak] at hfold
        refine ⟨q2, ?_, ?_⟩
        · rw [computeQualifiedName_ok_iff]
          exact ⟨q1, hpre, hak⟩
        · rw [computeQualifiedName_ok_iff]
          refine ⟨l, ?_, hc⟩
          exact (qualifiedNameFold_ok_index post (0 + pre.length + 1) 0 q2 l).mp hfold
  · rintro ⟨q, hq, hc⟩
    rw [computeQualifiedName_ok_iff] at hq hc
    obtain ⟨q1, hpre, hak⟩ := hq
    obtain ⟨l, hpost, hcl⟩ := hc
    refine ⟨l, ?_, hcl⟩
    rw [qualifiedNameFold_append, hpre]
    simp only []
    rw [qualifiedNameFold, hak]
    exact (qualifiedNameFold_ok_index post 0 (0 + pre.length + 1) q l).mp hpost

theorem sized16_of_lt {b : Bytes} (h : b.length < 65536) :
    sized16 b = some (be16 b.length ++ b) := by
  simp [sized16, h]

theorem readSized16_of_sized (xs r : Bytes) (h : xs.length < 65536) :
    readSized16 (be16 xs.length ++ xs ++ r) = some (xs, r) :=
  readSized16_roundtrip xs r h

theorem marshalSensitive_eq {s : Sensitive}
    (h1 : s.authValue.length < 65536) (h2 : s.seedValue.length < 65536)
    (h3 : s.sensitive.length < 65536) :
    marshalSensitive s =
      some (be16 (s.sensitiveType % 65536) ++
            (be16 s.authValue.length ++ s.authValue) ++
            (be16 s.seedValue.length ++ s.seedValue) ++
            (be16 s.sensitive.length ++ s.sensitive)) := by
  simp [marshalSensitive, sized16, h1, h2, h3]

theorem unmarshalSensitive_roundtrip {s : Sensitive} {m : Bytes}
    (ht : s.sensitiveType < 65536)
    (h1 : s.authValue.length < 65536) (h2 : s.seedValue.length < 65536)
    (h3 : s.sensitive.length < 65536)
    (hm : marshalSensitive s = some m) (r : Bytes) :
    unmarshalSensitive (m ++ r) = some (s, r) := by
  rw [marshalSensitive_eq h1 h2 h3] at hm
  cases hm
  simp only [unmarshalSensitive, List.append_assoc, read16_be16, Option.bind_eq_bind,
    Option.some_bind]
  have hmod : s.sensitiveType % 65536 % 65536 = s.sensitiveType := by omega
  rw [hmod]
  rw [← List.append_assoc (be16 s.authValue.length) s.authValue,
    readSized16_roundtrip _ _ h1]
  simp only [Option.some_bind]
  rw [← List.append_assoc (be16 s.seedValue.length) s.seedValue,
    readSized16_roundtrip _ _ h2]
  simp only [Option.some_bind]
  rw [← List.append_assoc (be16 s.sensitive.length) s.sensitive,
    readSized16_roundtrip _ _ h3]
  simp

theorem marshalSizedSensitive_roundtrip {s : Sensitive} {m : Bytes}
    (ht : s.sensitiveType < 65536)
    (h1 : s.authValue.length < 65536) (h2 : s.seedValue.length < 65536)
    (h3 : s.sensitive.length < 65536)
    (h4 : s.authValue.length + s.seedValue.length + s.sensitive.length + 8 < 65536)
    (hm : marshalSizedSensitive s = some m) :
    unmarshalSizedSensitive m = some s := by
  simp only [marshalSizedSensitive, Option.bind_eq_bind] at hm
  cases hmar : marshalSensitive s with
  | none => rw [hmar] at hm; simp at hm
  | some inner =>
    rw [hmar] at hm
    simp only [Option.some_bind] at hm
    have hinlen : inner.length < 65536 := by
      rw [marshalSensitive_eq h1 h2 h3] at hmar
      cases hmar
      simp [be16]
      omega
    rw [sized16_of_lt hinlen] at hm
    cases hm
    simp only [unmarshalSizedSensitive, read16_be16, Option.bind_eq_bind, Option.some_bind]
    rw [Nat.mod_eq_of_lt hinlen]
    have hrb : readBytes inner.length (inner ++ []) = some (inner, []) :=
      readBytes_append inner []
    rw [List.append_nil] at hrb
    rw [show readBytes inner.length inner = some (inner, []) from hrb]
    simp only [Option.some_bind]
    have hun : unmarshalSensitive (inner ++ []) = some (s, []) :=
      unmarshalSensitive_roundtrip ht h1 h2 h3 hmar []
    rw [List.append_nil] at hun
    rw [hun]
    simp

/-- C4: for every sensitive structure, object name, parent public area,
non-empty seed, non-null inner symmetric algorithm and non-empty inner
symmetric key, unwrapping the duplication blob produced by
SensitiveToDuplicate with DuplicateToSensitive (called with the matching
name, parent name algorithm, parent symmetric algorithm, seed, symmetric
algorithm and key) returns the original sensitive structure - for any crypto
adapter whose symmetric decrypt inverts encrypt, with the well-formedness
bounds the Go types impose on the sized buffers. -/
theorem c4_sensitive_duplicate_roundtrip
    (ca : CryptoAdapter)
    (hdec : ∀ alg key iv d, ca.decrypt alg key iv (ca.encrypt alg key iv d) = d)
    (s : Sensitive) (name : Bytes) (parent : PublicArea) (seed : Bytes)
    (symAlg : SymDefObject) (k randKey : Bytes)
    (ht : s.sensitiveType < 65536)
    (h1 : s.authValue.length < 65536) (h2 : s.seedValue.length < 65536)
    (h3 : s.sensitive.length < 65536)
    (h4 : s.authValue.length + s.seedValue.length + s.sensitive.length + 8 < 65536)
    (hhash : ∀ a d, (ca.hash a d).length < 65536)
    (hhmac : ∀ a key d, (ca.hmac a key d).length < 65536)
    (hseed : seed ≠ [])
    (halg : symAlg.algorithm ≠ SymObjectAlgorithmNull)
    (hk : k ≠ []) :
    ∃ blob, SensitiveToDuplicate ca s name parent seed (some symAlg) k randKey =
        .ok ([], blob) ∧
      DuplicateToSensitive ca blob name parent.nameAlg parent.symmetric seed
        (some symAlg) k = .ok s := by
  cases hmar : marshalSensitive s with
  | none => rw [marshalSensitive_eq h1 h2 h3] at hmar; simp at hmar
  | some inner =>
  have hinlen : inner.length < 65536 := by
    rw [marshalSensitive_eq h1 h2 h3] at hmar
    cases hmar
    simp [be16]
    omega
  have hms : marshalSizedSensitive s = some (be16 inner.length ++ inner) := by
    simp only [marshalSizedSensitive, Option.bind_eq_bind, hmar, Option.some_bind]
    exact sized16_of_lt hinlen
  have hklen : ¬(k.length = 0) := by
    cases k with
    | nil => exact absurd rfl hk
    | cons a t => simp
  have hsgt : seed.length > 0 := by
    cases seed with
    | nil => exact absurd rfl hseed
    | cons a t => simp
  have hpow : ProduceOuterWrap ca parent.nameAlg parent.symmetric name seed false []
      (ca.encrypt symAlg.algorithm k (List.replicate (ca.blockSize symAlg.algorithm) 0) (be16 (ca.hash (nameAlgorithm name) ((be16 inner.length ++ inner) ++ name)).length ++ ca.hash (nameAlgorithm name) ((be16 inner.length ++ inner) ++ name) ++ (be16 inner.length ++ inner))) = some (be16 (ca.hmac parent.nameAlg (ca.kdfa parent.nameAlg seed labelINTEGRITY [] [] (ca.hashSize parent.nameAlg * 8)) ((ca.encrypt parent.symmetric.algorithm (ca.kdfa parent.nameAlg seed labelSTORAGE name [] parent.symmetric.keyBits) (List.replicate (ca.blockSize parent.symmetric.algorithm) 0) (ca.encrypt symAlg.algorithm k (List.replicate (ca.blockSize symAlg.algorithm) 0) (be16 (ca.hash (nameAlgorithm name) ((be16 inner.length ++ inner) ++ name)).length ++ ca.hash (nameAlgorithm name) ((be16 inner.length ++ inner) ++ name) ++ (be16 inner.length ++ inner)))) ++ name)).length ++ (ca.hmac parent.nameAlg (ca.kdfa parent.nameAlg seed labelINTEGRITY [] [] (ca.hashSize parent.nameAlg * 8)) ((ca.encrypt parent.symmetric.algorithm (ca.kdfa parent.nameAlg seed labelSTORAGE name [] parent.symmetric.keyBits) (List.replicate (ca.blockSize parent.symmetric.algorithm) 0) (ca.encrypt symAlg.algorithm k (List.replicate (ca.blockSize symAlg.algorithm) 0) (be16 (ca.hash (nameAlgorithm name) ((be16 inner.length ++ inner) ++ name)).length ++ ca.hash (nameAlgorithm name) ((be16 inner.length ++ inner) ++ name) ++ (be16 inner.length ++ inner)))) ++ name)) ++ (ca.encrypt parent.symmetric.algorithm (ca.kdfa parent.nameAlg seed labelSTORAGE name [] parent.symmetric.keyBits) (List.replicate (ca.blockSize parent.symmetric.algorithm) 0) (ca.encrypt symAlg.algorithm k (List.replicate (ca.blockSize symAlg.algorithm) 0) (be16 (ca.hash (nameAlgorithm name) ((be16 inner.length ++ inner) ++ name)).length ++ ca.hash (nameAlgorithm name) ((be16 inner.length ++ inner) ++ name) ++ (be16 inner.length ++ inner))))) := by
    simp only [ProduceOuterWrap, Option.bind_eq_bind, Bool.false_eq_true, if_false,
      Option.some_bind]
    rw [sized16_of_lt (hhmac parent.nameAlg (ca.kdfa parent.nameAlg seed labelINTEGRITY [] [] (ca.hashSize parent.nameAlg * 8)) ((ca.encrypt parent.symmetric.algorithm (ca.kdfa parent.nameAlg seed labelSTORAGE name [] parent.symmetric.keyBits) (List.replicate (ca.blockSize parent.symmetric.algorithm) 0) (ca.encrypt symAlg.algorithm k (List.replicate (ca.blockSize symAlg.algorithm) 0) (be16 (ca.hash (nameAlgorithm name) ((be16 inner.length ++ inner) ++ name)).length ++ ca.hash (nameAlgorithm name) ((be16 inner.length ++ inner) ++ name) ++ (be16 inner.length ++ inner)))) ++ name))]
    rfl
  have hunw : UnwrapOuter ca parent.nameAlg parent.symmetric name seed false
      (be16 (ca.hmac parent.nameAlg (ca.kdfa parent.nameAlg seed labelINTEGRITY [] [] (ca.hashSize parent.nameAlg * 8)) ((ca.encrypt parent.symmetric.algorithm (ca.kdfa parent.nameAlg seed labelSTORAGE name [] parent.symmetric.keyBits) (List.replicate (ca.blockSize parent.symmetric.algorithm) 0) (ca.encrypt symAlg.algorithm k (List.replicate (ca.blockSize symAlg.algorithm) 0) (be16 (ca.hash (nameAlgorithm name) ((be16 inner.length ++ inner) ++ name)).length ++ ca.hash (nameAlgorithm name) ((be16 inner.length ++ inner) ++ name) ++ (be16 inner.length ++ inner)))) ++ name)).length ++ (ca.hmac parent.nameAlg (ca.kdfa parent.nameAlg seed labelINTEGRITY [] [] (ca.hashSize parent.nameAlg * 8)) ((ca.encrypt parent.symmetric.algorithm (ca.kdfa parent.nameAlg seed labelSTORAGE name [] parent.symmetric.keyBits) (List.replicate (ca.blockSize parent.symmetric.algorithm) 0) (ca.encrypt symAlg.algorithm k (List.replicate (ca.blockSize symAlg.algorithm) 0) (be16 (ca.hash (nameAlgorithm name) ((be16 inner.length ++ inner) ++ name)).length ++ ca.hash (nameAlgorithm name) ((be16 inner.length ++ inner) ++ name) ++ (be16 inner.length ++ inner)))) ++ name)) ++ (ca.encrypt parent.symmetric.algorithm (ca.kdfa parent.nameAlg seed labelSTORAGE name [] parent.symmetric.keyBits) (List.replicate (ca.blockSize parent.symmetric.algorithm) 0) (ca.encrypt symAlg.algorithm k (List.replicate (ca.blockSize symAlg.algorithm) 0) (be16 (ca.hash (nameAlgorithm name) ((be16 inner.length ++ inner) ++ name)).length ++ ca.hash (nameAlgorithm name) ((be16 inner.length ++ inner) ++ name) ++ (be16 inner.length ++ inner))))) = .ok (ca.encrypt symAlg.algorithm k (List.replicate (ca.blockSize symAlg.algorithm) 0) (be16 (ca.hash (nameAlgorithm name) ((be16 inner.length ++ inner) ++ name)).length ++ ca.hash (nameAlgorithm name) ((be16 inner.length ++ inner) ++ name) ++ (be16 inner.length ++ inner))) := by
    simp only [UnwrapOuter,
      readSized16_roundtrip (ca.hmac parent.nameAlg (ca.kdfa parent.nameAlg seed labelINTEGRITY [] [] (ca.hashSize parent.nameAlg * 8)) ((ca.encrypt parent.symmetric.algorithm (ca.kdfa parent.nameAlg seed labelSTORAGE name [] parent.symmetric.keyBits) (List.replicate (ca.blockSize parent.symmetric.algorithm) 0) (ca.encrypt symAlg.algorithm k (List.replicate (ca.blockSize symAlg.algorithm) 0) (be16 (ca.hash (nameAlgorithm name) ((be16 inner.length ++ inner) ++ name)).length ++ ca.hash (nameAlgorithm name) ((be16 inner.length ++ inner) ++ name) ++ (be16 inner.length ++ inner)))) ++ name)) (ca.encrypt parent.symmetric.algorithm (ca.kdfa parent.nameAlg seed labelSTORAGE name [] parent.symmetric.keyBits) (List.replicate (ca.blockSize parent.symmetric.algorithm) 0) (ca.encrypt symAlg.algorithm k (List.replicate (ca.blockSize symAlg.algorithm) 0) (be16 (ca.hash (nameAlgorithm name) ((be16 inner.length ++ inner) ++ name)).length ++ ca.hash (nameAlgorithm name) ((be16 inner.length ++ inner) ++ name) ++ (be16 inner.length ++ inner))))
        (hhmac parent.nameAlg (ca.kdfa parent.nameAlg seed labelINTEGRITY [] [] (ca.hashSize parent.nameAlg * 8)) ((ca.encrypt parent.symmetric.algorithm (ca.kdfa parent.nameAlg seed labelSTORAGE name [] parent.symmetric.keyBits) (List.replicate (ca.blockSize parent.symmetric.algorithm) 0) (ca.encrypt symAlg.algorithm k (List.replicate (ca.blockSize symAlg.algorithm) 0) (be16 (ca.hash (nameAlgorithm name) ((be16 inner.length ++ inner) ++ name)).length ++ ca.hash (nameAlgorithm name) ((be16 inner.length ++ inner) ++ name) ++ (be16 inner.length ++ inner)))) ++ name)),
      ne_eq, eq_self_iff_true, not_true_eq_false, if_false, Bool.false_eq_true,
      false_and, hdec]
  refine ⟨be16 (ca.hmac parent.nameAlg (ca.kdfa parent.nameAlg seed labelINTEGRITY [] [] (ca.hashSize parent.nameAlg * 8)) ((ca.encrypt parent.symmetric.algorithm (ca.kdfa parent.nameAlg seed labelSTORAGE name [] parent.symmetric.keyBits) (List.replicate (ca.blockSize parent.symmetric.algorithm) 0) (ca.encrypt symAlg.algorithm k (List.replicate (ca.blockSize symAlg.algorithm) 0) (be16 (ca.hash (nameAlgorithm name) ((be16 inner.length ++ inner) ++ name)).length ++ ca.hash (nameAlgorithm name) ((be16 inner.length ++ inner) ++ name) ++ (be16 inner.length ++ inner)))) ++ name)).length ++ (ca.hmac parent.nameAlg (ca.kdfa parent.nameAlg seed labelINTEGRITY [] [] (ca.hashSize parent.nameAlg * 8)) ((ca.encrypt parent.symmetric.algorithm (ca.kdfa parent.nameAlg seed labelSTORAGE name [] parent.symmetric.keyBits) (List.replicate (ca.blockSize parent.symmetric.algorithm) 0) (ca.encrypt symAlg.algorithm k (List.replicate (ca.blockSize symAlg.algorithm) 0) (be16 (ca.hash (nameAlgorithm name) ((be16 inner.length ++ inner) ++ name)).length ++ ca.hash (nameAlgorithm name) ((be16 inner.length ++ inner) ++ name) ++ (be16 inner.length ++ inner)))) ++ name)) ++ (ca.encrypt parent.symmetric.algorithm (ca.kdfa parent.nameAlg seed labelSTORAGE name [] parent.symmetric.keyBits) (List.replicate (ca.blockSize parent.symmetric.algorithm) 0) (ca.encrypt symAlg.algorithm k (List.replicate (ca.blockSize symAlg.algorithm) 0) (be16 (ca.hash (nameAlgorithm name) ((be16 inner.length ++ inner) ++ name)).length ++ ca.hash (nameAlgorithm name) ((be16 inner.length ++ inner) ++ name) ++ (be16 inner.length ++ inner)))), ?_, ?_⟩
  · simp only [SensitiveToDuplicate, hms]
    rw [if_pos halg]
    rw [sized16_of_lt (hhash (nameAlgorithm name) ((be16 inner.length ++ inner) ++ name))]
    simp only [hklen, if_false]
    rw [if_pos hsgt]
    simp only [hpow]
  · simp only [DuplicateToSensitive]
    rw [if_pos hsgt]
    simp only [hunw]
    rw [if_pos halg]
    simp only [hdec,
      readSized16_roundtrip (ca.hash (nameAlgorithm name) ((be16 inner.length ++ inner) ++ name)) ((be16 inner.length ++ inner))
        (hhash (nameAlgorithm name) ((be16 inner.length ++ inner) ++ name)),
      ne_eq, eq_self_iff_true, not_true_eq_false, if_false,
      marshalSizedSensitive_roundtrip ht h1 h2 h3 h4 hms]

/-- C4 witness: the roundtrip theorem applied with an identity cipher and
constant digest functions at a concrete sensitive structure. -/
theorem c4_sensitive_duplicate_roundtrip_witness :
    ∃ blob,
      SensitiveToDuplicate
        ⟨fun _ _ => [1], fun _ _ _ => [2], fun _ _ _ _ _ _ => [3],
         fun _ _ _ d => d, fun _ _ _ d => d, fun _ => 16, fun _ => 32⟩
        ⟨0x25, [1], [2], [3]⟩ [0, 0xb] ⟨0xb, ⟨6, 128⟩⟩ [9] (some ⟨6, 128⟩) [8] [] =
        .ok ([], blob) ∧
      DuplicateToSensitive
        ⟨fun _ _ => [1], fun _ _ _ => [2], fun _ _ _ _ _ _ => [3],
         fun _ _ _ d => d, fun _ _ _ d => d, fun _ => 16, fun _ => 32⟩
        blob [0, 0xb] 0xb ⟨6, 128⟩ [9] (some ⟨6, 128⟩) [8] = .ok ⟨0x25, [1], [2], [3]⟩ :=
  c4_sensitive_duplicate_roundtrip
    ⟨fun _ _ => [1], fun _ _ _ => [2], fun _ _ _ _ _ _ => [3],
     fun _ _ _ d => d, fun _ _ _ d => d, fun _ => 16, fun _ => 32⟩
    (fun _ _ _ _ => rfl)
    ⟨0x25, [1], [2], [3]⟩ [0, 0xb] ⟨0xb, ⟨6, 128⟩⟩ [9] ⟨6, 128⟩ [8] []
    (by decide) (by decide) (by decide) (by decide) (by decide)
    (fun _ _ => by simp) (fun _ _ _ => by simp)
    (by decide) (by decide) (by decide)

set_option maxRecDepth 4000 in
theorem c9aux256a :
    sha256 (List.replicate 32 0 ++ be32 CommandPolicySecret ++ ownerName) =
      [71, 140, 247, 148, 218, 14, 5, 49, 244, 17, 115, 68, 39, 125, 119, 208, 134, 37, 144, 67, 240, 55, 182, 214, 127, 99, 177, 50, 160, 139, 252, 39] := by decide

set_option maxRecDepth 4000 in
theorem c9aux256b :
    sha256 ([71, 140, 247, 148, 218, 14, 5, 49, 244, 17, 115, 68, 39, 125, 119, 208, 134, 37, 144, 67, 240, 55, 182, 214, 127, 99, 177, 50, 160, 139, 252, 39] ++ [98, 97, 114]) = [39, 243, 63, 116, 150, 218, 16, 105, 84, 32, 124, 75, 195, 34, 176, 204, 203, 150, 81, 109, 251, 245, 63, 130, 178, 142, 44, 6, 153, 5, 85, 139] := by decide

set_option maxRecDepth 4000 in
theorem c9aux256c :
    sha256 ([39, 243, 63, 116, 150, 218, 16, 105, 84, 32, 124, 75, 195, 34, 176, 204, 203, 150, 81, 109, 251, 245, 63, 130, 178, 142, 44, 6, 153, 5, 85, 139] ++ be32 CommandPolicyAuthValue) = [110, 137, 111, 129, 212, 22, 214, 168, 71, 105, 39, 249, 104, 191, 30, 201, 49, 17, 250, 95, 237, 36, 208, 6, 150, 128, 40, 223, 90, 88, 1, 245] := by decide

set_option maxRecDepth 4000 in
theorem c9aux256d :
    sha256 ([110, 137, 111, 129, 212, 22, 214, 168, 71, 105, 39, 249, 104, 191, 30, 201, 49, 17, 250, 95, 237, 36, 208, 6, 150, 128, 40, 223, 90, 88, 1, 245] ++ be32 CommandPolicyCommandCode ++ be32 CommandNVChangeAuth) =
      [66, 109, 247, 221, 208, 125, 191, 170, 64, 2, 55, 247, 115, 218, 128, 30, 70, 78, 242, 118, 96, 132, 150, 107, 4, 216, 180, 223, 192, 254, 238, 229] := by decide

set_option maxRecDepth 4000 in
theorem c9aux1a :
    sha1 (List.replicate 20 0 ++ be32 CommandPolicySecret ++ ownerName) =
      [71, 11, 165, 226, 121, 239, 99, 174, 50, 131, 90, 61, 134, 68, 176, 157, 2, 107, 214, 109] := by decide

set_option maxRecDepth 4000 in
theorem c9aux1b :
    sha1 ([71, 11, 165, 226, 121, 239, 99, 174, 50, 131, 90, 61, 134, 68, 176, 157, 2, 107, 214, 109] ++ [98, 97, 114]) = [66, 30, 120, 70, 250, 112, 215, 80, 30, 17, 53, 215, 24, 214, 142, 210, 153, 100, 164, 56] := by decide

set_option maxRecDepth 4000 in
theorem c9aux1c :
    sha1 ([66, 30, 120, 70, 250, 112, 215, 80, 30, 17, 53, 215, 24, 214, 142, 210, 153, 100, 164, 56] ++ be32 CommandPolicyAuthValue) = [81, 41, 243, 4, 143, 206, 1, 251, 70, 62, 193, 55, 126, 201, 184, 215, 12, 109, 14, 57] := by decide

set_option maxRecDepth 4000 in
theorem c9aux1d :
    sha1 ([81, 41, 243, 4, 143, 206, 1, 251, 70, 62, 193, 55, 126, 201, 184, 215, 12, 109, 14, 57] ++ be32 CommandPolicyCommandCode ++ be32 CommandNVChangeAuth) =
      [171, 220, 232, 58, 181, 15, 77, 95, 211, 120, 24, 30, 33, 222, 148, 134, 85, 150, 18, 211] := by decide

set_option maxRecDepth 8000 in
set_option maxHeartbeats 4000000 in
/-- C9: the offline digest of the ordered policy [PolicySecret(owner,
"bar"), PolicyAuthValue, PolicyCommandCode(NVChangeAuth)] computed for
SHA-256 is 426df7ddd07dbfaa400237f773da801e464ef2766084966b04d8b4dfc0feeee5,
and the same policy computed for SHA-1 is
abdce83ab50f4d5fd378181e21de9486559612d3. -/
theorem c9_policy_mixed_digests :
    computePolicy sha256 32 policyMixed =
      [0x42, 0x6d, 0xf7, 0xdd, 0xd0, 0x7d, 0xbf, 0xaa, 0x40, 0x02, 0x37, 0xf7,
       0x73, 0xda, 0x80, 0x1e, 0x46, 0x4e, 0xf2, 0x76, 0x60, 0x84, 0x96, 0x6b,
       0x04, 0xd8, 0xb4, 0xdf, 0xc0, 0xfe, 0xee, 0xe5] ∧
    computePolicy sha1 20 policyMixed =
      [0xab, 0xdc, 0xe8, 0x3a, 0xb5, 0x0f, 0x4d, 0x5f, 0xd3, 0x78, 0x18, 0x1e,
       0x21, 0xde, 0x94, 0x86, 0x55, 0x96, 0x12, 0xd3] := by
  constructor
  · simp only [computePolicy, policyMixed, List.foldl, policyUpdate]
    rw [c9aux256a, c9aux256b, c9aux256c, c9aux256d]
  · simp only [computePolicy, policyMixed, List.foldl, policyUpdate]
    rw [c9aux1a, c9aux1b, c9aux1c, c9aux1d]

end GoTpm2
